import Mathlib

/-!
# Diode client: RPC bridge and fetch command

A shallow embedding of `rpc/bridge.go` and of the URL handling of
`cmd/diode/fetch.go`.

Conventions of the embedding.

* Collaborators that live outside the two files (the wire codec, the port pool,
  the ledger, the secure transport, the local dialer) are fields of a `...Sys`
  structure over an abstract world `W`.  A call that returns a value is a field
  reading (and possibly changing) the world; a call made only for its effect is
  recorded as an event and changes the world through `perform`.
* Every call is appended to a trace in program order.  A `go f(...)` statement
  is recorded at the place where the goroutine is started.
* Go `int` is 64 bit two's complement (`wrapInt`).
-/

namespace Diode

/-! ## Machine integers -/

/-- Two's complement reduction of an integer to the range of Go's `int`. -/
def wrapInt (x : Int) : Int := (x + 9223372036854775808) % 18446744073709551616 - 9223372036854775808

/-- Conversion `uint64(x)`. -/
def toUint64 (x : Int) : Nat := (x % 18446744073709551616).toNat

/-- The largest value of Go's `int`. -/
def maxInt : Int := 9223372036854775807

/-- The smallest value of Go's `int`. -/
def minInt : Int := -9223372036854775808

deriving instance DecidableEq for Except

/-! ## Configuration -/

/-- Go `map[string]bool`, as its list of entries. -/
structure GoMap where
  entries : List (String × Bool)
deriving DecidableEq, Repr

/-- Go `len(m)`. -/
def GoMap.len (m : GoMap) : Nat := m.entries.length

/-- Go `m[k]`: the stored value, `false` for a missing key. -/
def GoMap.get (m : GoMap) (k : String) : Bool := (m.entries.lookup k).getD false

/-- The fields of `rpcClient.Config` read by the bridge. -/
structure Config where
  Blacklists : GoMap
  Whitelists : GoMap
  FleetAddr : List Nat
deriving DecidableEq, Repr

/-! ## Inbound requests -/

/-- The request `edge.PortOpen`. -/
structure PortOpen where
  Ref : Int
  Port : Int
  DeviceID : String
  Err : Option String
deriving DecidableEq, Repr

/-- The request `edge.PortSend`. -/
structure PortSend where
  Ref : Int
  Data : List Nat
  Err : Option String
deriving DecidableEq, Repr

/-- The request `edge.PortClose`. -/
structure PortClose where
  Ref : Int
deriving DecidableEq, Repr

/-- The request `edge.Goodbye`. -/
structure Goodbye where
  Reason : String
deriving DecidableEq, Repr

/-- The dynamic type of the `interface{}` handed to `handleInboundRequest`. -/
inductive InboundRequest where
  | portOpen (r : PortOpen)
  | portSend (r : PortSend)
  | portClose (r : PortClose)
  | goodbye (r : Goodbye)
  | other (description : String)
deriving DecidableEq, Repr

/-- The publication modes of `config`. -/
inductive PublishedMode where
  | PublicPublishedMode
  | ProtectedPublishedMode
  | PrivatePublishedMode
deriving DecidableEq, Repr

/-- The entry `config.Port` of a published port.  `IsWhitelisted` is the method of
that name, which is declared outside the two files. -/
structure PublishedPort where
  Src : Int
  Mode : PublishedMode
  IsWhitelisted : String → Bool

/-- The record `ConnectedDevice` as filled in by the dial goroutine. -/
structure ConnectedDevice where
  Ref : Int
  ClientID : String
  DeviceID : String
  Conn : Option Nat
deriving DecidableEq, Repr

/-- The error values passed to `ResponsePortOpen`, one per `fmt.Errorf` site. -/
inductive PortOpenError where
  /-- Built by `fmt.Errorf(portOpen.Err.Error())`. -/
  | decode (msg : String)
  /-- Built from `"Device %v is on the black list"`. -/
  | onBlackList (device : String)
  /-- Built from `"Device %v is not in the white list"`. -/
  | notInWhiteList (device : String)
  /-- The variable `errPortNotPublished`, `"port was not published"`. -/
  | errPortNotPublished
  /-- Built from `"Device %v is not in the whitelist (1)"`. -/
  | notInWhitelist1 (device : String)
  /-- Built from `"Device %v is not in the whitelist (2)"`. -/
  | notInWhitelist2 (device : String)
  /-- The error returned by `net.DialTimeout`. -/
  | dial (msg : String)
deriving DecidableEq, Repr

/-- The calls `handleInboundRequest` makes, in program order; a call whose result is
read carries that result. -/
inductive PortEvent where
  | ResponsePortOpen (portOpen : PortOpen) (err : Option PortOpenError)
  | Error (format : String)
  | Info (format : String)
  | Warn (format : String)
  | GetPublishedPort (port : Int) (found : Bool)
  | IsAccessWhitelisted (fleet : List Nat) (device : List Nat) (result : Except String Bool)
  | DialTimeout (host : String) (result : Except String Nat)
  | SetDevice (key : String) (device : Option ConnectedDevice)
  | copyToSSL (device : ConnectedDevice)
  | CloseDevice (device : ConnectedDevice)
  | GetDevice (key : String) (result : Option ConnectedDevice)
  | writeToTCP (device : ConnectedDevice) (data : List Nat)
  | CastPortClose (ref : Int)
  | Close
deriving DecidableEq, Repr

/-- The collaborators of `handleInboundRequest`. -/
structure PortSys (W : Type) where
  GetPublishedPort : W → Int → Option PublishedPort
  DecodeString : String → List Nat
  IsAccessWhitelisted : W → List Nat → List Nat → Except String Bool × W
  DialTimeout : W → String → Except String Nat × W
  GetDeviceKey : Int → String
  GetDevice : W → String → Option ConnectedDevice
  Closed : W → Bool
  perform : PortEvent → W → W

/-- The state threaded through a run: the world and the calls made so far. -/
structure Run (W E : Type) where
  world : W
  trace : List E

/-- A call made for its effect. -/
def Run.emit {W E : Type} (perform : E → W → W) (e : E) (s : Run W E) : Run W E :=
  { world := perform e s.world, trace := s.trace ++ [e] }

/-- A call whose result the caller reads; the collaborator supplies the next world. -/
def Run.call {W E : Type} (e : E) (w : W) (s : Run W E) : Run W E :=
  { world := w, trace := s.trace ++ [e] }

/-- The list check at the head of the `PortOpen` branch: the error to answer with,
if any. -/
def checkLists (c : Config) (device : String) : Option PortOpenError :=
  if c.Blacklists.len > 0 then
    if c.Blacklists.get device then some (.onBlackList device) else none
  else
    if c.Whitelists.len > 0 then
      if !c.Whitelists.get device then some (.notInWhiteList device) else none
    else none

/-- Go `copy(deviceID[:], decDeviceID)` into a zeroed `[20]byte`. -/
def copy20 (src : List Nat) : List Nat :=
  src.take 20 ++ List.replicate (20 - src.length) 0

/-- The dialled address `net.JoinHostPort("localhost", strconv.Itoa(int(src)))`. -/
def localHost (src : Int) : String := "localhost:" ++ toString (wrapInt src)

/-- The record `connDevice` once the dial goroutine has filled it in. -/
def newDevice (portOpen : PortOpen) (remoteConn : Nat) : ConnectedDevice :=
  { Ref := portOpen.Ref, ClientID := portOpen.DeviceID ++ toString portOpen.Ref,
    DeviceID := portOpen.DeviceID, Conn := some remoteConn }

/-- The goroutine started at the end of the `PortOpen` branch. -/
def dialLocal {W : Type} (sys : PortSys W) (portOpen : PortOpen) (publishedPort : PublishedPort)
    (s : Run W PortEvent) : Run W PortEvent :=
  let host := localHost publishedPort.Src
  let r := sys.DialTimeout s.world host
  let s := s.call (.DialTimeout host r.1) r.2
  match r.1 with
  | .error err =>
    let s := s.emit sys.perform (.ResponsePortOpen portOpen (some (.dial err)))
    s.emit sys.perform (.Error "failed to connect local: %v")
  | .ok remoteConn =>
    let s := s.emit sys.perform (.ResponsePortOpen portOpen none)
    let deviceKey := sys.GetDeviceKey portOpen.Ref
    let connDevice := newDevice portOpen remoteConn
    let s := s.emit sys.perform (.SetDevice deviceKey (some connDevice))
    let s := s.emit sys.perform (.copyToSSL connDevice)
    s.emit sys.perform (.CloseDevice connDevice)

/-- The part of the `PortOpen` branch after the list check. -/
def openPublished {W : Type} (sys : PortSys W) (cfg : Config) (portOpen : PortOpen)
    (s : Run W PortEvent) : Run W PortEvent :=
  let port := wrapInt portOpen.Port
  let found := sys.GetPublishedPort s.world port
  let s := s.call (.GetPublishedPort port found.isSome) s.world
  match found with
  | none =>
    let s := s.emit sys.perform (.ResponsePortOpen portOpen (some .errPortNotPublished))
    s.emit sys.perform (.Info "port was not published port = %v")
  | some publishedPort =>
    if !publishedPort.IsWhitelisted portOpen.DeviceID then
      if publishedPort.Mode = .ProtectedPublishedMode then
        let deviceID := copy20 (sys.DecodeString portOpen.DeviceID)
        let r := sys.IsAccessWhitelisted s.world cfg.FleetAddr deviceID
        let s := s.call (.IsAccessWhitelisted cfg.FleetAddr deviceID r.1) r.2
        match r.1 with
        | .ok true => dialLocal sys portOpen publishedPort s
        | _ => s.emit sys.perform (.ResponsePortOpen portOpen
                (some (.notInWhitelist1 portOpen.DeviceID)))
      else
        s.emit sys.perform (.ResponsePortOpen portOpen (some (.notInWhitelist2 portOpen.DeviceID)))
    else dialLocal sys portOpen publishedPort s

/-- The function `RPCClient.handleInboundRequest`. -/
def handleInboundRequest {W : Type} (sys : PortSys W) (cfg : Config) (inboundRequest : InboundRequest)
    (s : Run W PortEvent) : Run W PortEvent :=
  match inboundRequest with
  | .portOpen portOpen =>
    match portOpen.Err with
    | some e =>
      let s := s.emit sys.perform (.ResponsePortOpen portOpen (some (.decode e)))
      s.emit sys.perform (.Error "Failed to decode portopen request: %v")
    | none =>
      match checkLists cfg portOpen.DeviceID with
      | some err => s.emit sys.perform (.ResponsePortOpen portOpen (some err))
      | none => openPublished sys cfg portOpen s
  | .portSend portSend =>
    match portSend.Err with
    | some _ => s.emit sys.perform (.Error "failed to decode portsend request: %v")
    | none =>
      let deviceKey := sys.GetDeviceKey portSend.Ref
      let cached := sys.GetDevice s.world deviceKey
      let s := s.call (.GetDevice deviceKey cached) s.world
      match cached with
      | some cachedConnDevice => s.emit sys.perform (.writeToTCP cachedConnDevice portSend.Data)
      | none =>
        let s := s.emit sys.perform (.Error "cannot find the portsend connected device %d")
        s.emit sys.perform (.CastPortClose (wrapInt portSend.Ref))
  | .portClose portClose =>
    let deviceKey := sys.GetDeviceKey portClose.Ref
    let cached := sys.GetDevice s.world deviceKey
    let s := s.call (.GetDevice deviceKey cached) s.world
    match cached with
    | some cachedConnDevice =>
      let s := s.emit sys.perform (.CloseDevice cachedConnDevice)
      s.emit sys.perform (.SetDevice deviceKey none)
    | none => s.emit sys.perform (.Error "cannot find the portclose connected device %d")
  | .goodbye _ =>
    let s := s.emit sys.perform (.Warn "server disconnected, reason: %v")
    if !sys.Closed s.world then s.emit sys.perform .Close else s
  | .other _ => s.emit sys.perform (.Warn "doesn't support rpc request: %+v ")

/-! ## The dispatcher -/

/-- A frame taken from `rpcClient.messageQueue`. -/
structure Message where
  Len : Int
  Buffer : List Nat
deriving DecidableEq, Repr

/-- The value `edge.Error`. -/
structure EdgeError where
  Message : String
deriving DecidableEq, Repr

/-- What `enqueueResponse` puts into a response slot: a parsed value or an `edge.Error`. -/
inductive Response (V : Type) where
  | value (res : V)
  | error (rpcError : EdgeError)
deriving DecidableEq, Repr

/-- The fields of `Call` read by the bridge.  `response` is the channel (`none` for a nil
channel), named by a number; `Parse` is the parse callback (`none` for nil). -/
structure Call (V : Type) where
  id : Nat
  method : String
  data : List Nat
  Parse : Option (List Nat → Except String V)
  response : Option Nat

/-- The calls `handleInboundMessage` makes for one frame, in program order. -/
inductive DispatchEvent (V : Type) where
  | CheckTicket
  | StepBack
  | firstCallByID (id : Nat) (callID : Nat)
  | Error (format : String)
  | Debug (format : String)
  | enqueueResponse (slot : Nat) (value : Response V)
  | close (slot : Nat)
  | inbound (e : PortEvent)
deriving DecidableEq, Repr

/-- The collaborators of `handleInboundMessage`: the edge protocol, the call table and
those of `handleInboundRequest`. -/
structure DispatchSys (W V : Type) where
  port : PortSys W
  cfg : Config
  IsResponse : Message → Bool
  ResponseID : Message → Nat
  IsError : Message → Bool
  ReadAsError : Message → EdgeError
  ReadAsInboundRequest : Message → Except String InboundRequest
  firstCallByID : W → Nat → Call V × W
  perform : DispatchEvent V → W → W

/-- The body of the loop of `handleInboundMessage`, run for one frame of the queue. -/
def dispatchMessage {W V : Type} (sys : DispatchSys W V) (msg : Message)
    (s : Run W (DispatchEvent V)) : Run W (DispatchEvent V) :=
  let s := s.emit sys.perform .CheckTicket
  if sys.IsResponse msg then
    let s := s.emit sys.perform .StepBack
    let r := sys.firstCallByID s.world (sys.ResponseID msg)
    let call := r.1
    let s := s.call (.firstCallByID (sys.ResponseID msg) call.id) r.2
    match call.response with
    | none => s.emit sys.perform (.Error "Call.response is nil: %s %s")
    | some slot =>
      if sys.IsError msg then
        let rpcError := sys.ReadAsError msg
        s.emit sys.perform (.enqueueResponse slot (.error rpcError))
      else
        match call.Parse with
        | none => s.emit sys.perform (.Debug "no parse callback for rpc call: id: %d, method: %s")
        | some parse =>
          match parse msg.Buffer with
          | .error err =>
            let s := s.emit sys.perform (.Error "cannot decode response: %s")
            let rpcError : EdgeError := { Message := err }
            s.emit sys.perform (.enqueueResponse slot (.error rpcError))
          | .ok res =>
            let s := s.emit sys.perform (.enqueueResponse slot (.value res))
            s.emit sys.perform (.close slot)
  else
    match sys.ReadAsInboundRequest msg with
    | .error _ => s.emit sys.perform (.Error "Not rpc request: %v")
    | .ok inboundRequest =>
      let r := handleInboundRequest sys.port sys.cfg inboundRequest { world := s.world, trace := [] }
      { world := r.world, trace := s.trace ++ r.trace.map .inbound }

/-- The function `RPCClient.handleInboundMessage`: the frames of the queue are handled in
order until the queue is closed. -/
def handleInboundMessage {W V : Type} (sys : DispatchSys W V) (messageQueue : List Message)
    (s : Run W (DispatchEvent V)) : Run W (DispatchEvent V) :=
  messageQueue.foldl (fun s msg => dispatchMessage sys msg s) s

/-! ## The reader -/

/-- A Go `error` returned by the transport: the sentinel `io.EOF` or any other error,
given by its text. -/
inductive TransportError where
  | EOF
  | other (text : String)
deriving DecidableEq, Repr

/-- The method `err.Error()`. -/
def TransportError.Error : TransportError → String
  | .EOF => "EOF"
  | .other text => text

/-- Go `strings.Contains(s, substr)`. -/
def stringsContains (s substr : String) : Bool :=
  s.data.tails.any fun t => substr.data.isPrefixOf t

/-- The signals sent to outstanding calls and to the client's signal channel. -/
inductive Signal where
  | RECONNECTING
  | RECONNECTED
  | CANCELLED
deriving DecidableEq, Repr

/-- The calls `recvMessage` makes, in program order. -/
inductive RecvEvent where
  | readMessage (result : Except TransportError Message)
  | sClosed (closed : Bool)
  | notifyCalls (signal : Signal)
  | Reconnect (isOk : Bool)
  | recall
  | notifySignal (signal : Signal)
  | Closed (closed : Bool)
  | Close
  | Debug (format : String)
  | enqueueMessage (msg : Message)
deriving DecidableEq, Repr

/-- The collaborators of `recvMessage`: the transport session `rpcClient.s`, the
reconnect logic and the client's own closed flag. -/
structure RecvSys (W : Type) where
  readMessage : W → Except TransportError Message × W
  sClosed : W → Bool
  Reconnect : W → Bool × W
  Closed : W → Bool
  perform : RecvEvent → W → W

/-- The test `err == io.EOF || strings.Contains(err.Error(), "connection reset by peer")`
of `recvMessage`. -/
def lostConnection (err : TransportError) : Bool :=
  err = .EOF || stringsContains err.Error "connection reset by peer"

/-- The tail of the error branch of `recvMessage`: cancel and close unless the client is
closed already.  The reader returns after it. -/
def cancelAndClose {W : Type} (sys : RecvSys W) (s : Run W RecvEvent) : Run W RecvEvent :=
  let closed := sys.Closed s.world
  let s := s.call (.Closed closed) s.world
  if !closed then
    let s := s.emit sys.perform (.notifyCalls .CANCELLED)
    s.emit sys.perform .Close
  else s

/-- One iteration of the loop of `recvMessage`.  The flag tells whether the loop goes on
(`true`) or the reader returns (`false`). -/
def recvStep {W : Type} (sys : RecvSys W) (s : Run W RecvEvent) : Run W RecvEvent × Bool :=
  let r := sys.readMessage s.world
  let s := s.call (.readMessage r.1) r.2
  match r.1 with
  | .error err =>
    if lostConnection err then
      let closed := sys.sClosed s.world
      let s := s.call (.sClosed closed) s.world
      if !closed then
        let s := s.emit sys.perform (.notifyCalls .RECONNECTING)
        let c := sys.Reconnect s.world
        let s := s.call (.Reconnect c.1) c.2
        if c.1 then
          let s := s.emit sys.perform .recall
          let s := s.emit sys.perform (.notifySignal .RECONNECTED)
          (s, true)
        else (cancelAndClose sys s, false)
      else (cancelAndClose sys s, false)
    else (cancelAndClose sys s, false)
  | .ok msg =>
    if msg.Len > 0 then
      let s := s.emit sys.perform (.Debug "Receive %d bytes data from ssl")
      (s.emit sys.perform (.enqueueMessage msg), true)
    else (s, true)

/-- The function `RPCClient.recvMessage`, run for at most `fuel` iterations: `none` when
the reader is still reading after them. -/
def recvMessage {W : Type} (sys : RecvSys W) : Nat → Run W RecvEvent → Option (Run W RecvEvent)
  | 0, _ => none
  | fuel + 1, s =>
    match recvStep sys s with
    | (s, true) => recvMessage sys fuel s
    | (s, false) => some s

/-! ## The writer -/

/-- The calls `sendMessage` makes, in program order. -/
inductive SendEvent (V : Type) where
  | Reconnecting (reconnecting : Bool)
  | Debug (format : String)
  | addCall (call : Call V)
  | Write (data : List Nat) (n : Int) (err : Option String)
  | Error (format : String)
  | NewErrorResponse (method : String) (err : String)
  | Println
  | incrementTotalBytes (n : Int)
  | UpdateWriteTimer

/-- The collaborators of `sendMessage`. -/
structure SendSys (W V : Type) where
  Reconnecting : W → Bool
  Write : W → List Nat → (Int × Option String) × W
  enableMetrics : Bool
  perform : SendEvent V → W → W

/-- The body of the loop of `sendMessage`, run for one call taken from the call queue. -/
def sendCall {W V : Type} (sys : SendSys W V) (call : Call V) (s : Run W (SendEvent V)) :
    Run W (SendEvent V) :=
  let reconnecting := sys.Reconnecting s.world
  let s := s.call (.Reconnecting reconnecting) s.world
  if reconnecting then
    let s := s.emit sys.perform (.Debug "Resend rpc due to reconnect: %s")
    s.emit sys.perform (.addCall call)
  else
    let s := s.emit sys.perform (.Debug "Send new rpc: %s")
    let r := sys.Write s.world call.data
    let n := r.1.1
    let s := s.call (.Write call.data n r.1.2) r.2
    match r.1.2 with
    | some err =>
      let s := s.emit sys.perform (.Error "Failed to write to node: %v")
      let s := s.emit sys.perform (.NewErrorResponse call.method err)
      s.emit sys.perform .Println
    | none =>
      if n ≠ (call.data.length : Int) then
        s.emit sys.perform (.Error "Wrong length of data")
      else
        let s := s.emit sys.perform (.incrementTotalBytes n)
        let s := if sys.enableMetrics then s.emit sys.perform .UpdateWriteTimer else s
        s.emit sys.perform (.addCall call)

/-- The function `RPCClient.sendMessage`: the calls of the queue are handled in order until
the queue is closed. -/
def sendMessage {W V : Type} (sys : SendSys W V) (callQueue : List (Call V))
    (s : Run W (SendEvent V)) : Run W (SendEvent V) :=
  callQueue.foldl (fun s call => sendCall sys call s) s

/-! ## The block follower -/

/-- The calls one tick of `watchLatestBlock` makes, in program order. -/
inductive BlockEvent (H : Type) where
  | Last (height : Int)
  | GetBlockPeak (result : Except String Int)
  | Error (format : String)
  | Info (format : String)
  | GetBlockHeaderUnsafe (num : Nat) (result : Except String H)
  | AddBlock (blockHeader : H) (err : Option String)
  | storeLastValid
deriving DecidableEq, Repr

/-- The collaborators of `watchLatestBlock`: the ledger store `bq`, the two RPC calls and
the constant `confirmationSize`, which is declared outside the two files. -/
structure BlockSys (W H : Type) where
  confirmationSize : Int
  bqIsNil : W → Bool
  Last : W → Int
  GetBlockPeak : W → Except String Int × W
  GetBlockHeaderUnsafe : W → Nat → Except String H × W
  AddBlock : W → H → Bool → Option String × W
  perform : BlockEvent H → W → W

/-- The variable `lastblock` of `watchLatestBlock` together with the run. -/
structure Follower (W H : Type) where
  lastblock : Int
  run : Run W (BlockEvent H)

/-- How the `for num := lastblock + 1; num <= blockNumMax; num++` loop ended: `completed`
when the condition failed, `aborted` when the body returned. -/
inductive LoopExit where
  | completed
  | aborted
deriving DecidableEq, Repr

/-- The loop `for num := ...; num <= blockNumMax; num++` of a tick, entered with the
current `num`; `none` when `fuel` condition checks were not enough. -/
def fetchLoop {W H : Type} (sys : BlockSys W H) (blockNumMax : Int) :
    Nat → Int → Follower W H → Option (LoopExit × Follower W H)
  | 0, _, _ => none
  | fuel + 1, num, st =>
    if num ≤ blockNumMax then
      let r := sys.GetBlockHeaderUnsafe st.run.world (toUint64 num)
      let s := st.run.call (.GetBlockHeaderUnsafe (toUint64 num) r.1) r.2
      match r.1 with
      | .error _ =>
        let s := s.emit sys.perform (.Error "Couldn't download block header %v")
        some (.aborted, { st with run := s })
      | .ok blockHeader =>
        let a := sys.AddBlock s.world blockHeader false
        let s := s.call (.AddBlock blockHeader a.1) a.2
        match a.1 with
        | some _ =>
          let s := s.emit sys.perform (.Error "Couldn't add block %v %v: %v")
          let last := sys.Last s.world
          some (.aborted, { lastblock := last, run := s.call (.Last last) s.world })
        | none => fetchLoop sys blockNumMax fuel (wrapInt (num + 1)) { st with run := s }
    else some (.completed, st)

/-- The goroutine started by `watchLatestBlock` on each tick of the block ticker. -/
def tick {W H : Type} (sys : BlockSys W H) (fuel : Nat) (st : Follower W H) :
    Option (Follower W H) :=
  if sys.bqIsNil st.run.world then some st
  else
    let st : Follower W H :=
      if st.lastblock = 0 then
        let last := sys.Last st.run.world
        { lastblock := last, run := st.run.call (.Last last) st.run.world }
      else st
    let p := sys.GetBlockPeak st.run.world
    let s := st.run.call (.GetBlockPeak p.1) p.2
    match p.1 with
    | .error _ => some { st with run := s.emit sys.perform (.Error "Cannot getblockheader: %v") }
    | .ok blockPeak =>
      let blockNumMax := wrapInt (blockPeak - sys.confirmationSize)
      if st.lastblock ≥ blockNumMax then some { st with run := s }
      else
        match fetchLoop sys blockNumMax fuel (wrapInt (st.lastblock + 1)) { st with run := s } with
        | none => none
        | some (.aborted, st) => some st
        | some (.completed, st) =>
          let lastn := sys.Last st.run.world
          let s := st.run.call (.Last lastn) st.run.world
          let s := s.emit sys.perform (.Info "Added block(s) %v-%v, last valid %v")
          some { lastblock := blockNumMax, run := s.emit sys.perform .storeLastValid }

/-- The given number of ticks of the block ticker, each tick's goroutine running to its end
before the next tick. -/
def runTicks {W H : Type} (sys : BlockSys W H) (fuel : Nat) :
    Nat → Follower W H → Option (Follower W H)
  | 0, st => some st
  | ticks + 1, st =>
    match tick sys fuel st with
    | none => none
    | some st => runTicks sys fuel ticks st

/-- The function `RPCClient.watchLatestBlock`, stopped after the given number of ticks:
`lastblock` starts at zero. -/
def watchLatestBlock {W H : Type} (sys : BlockSys W H) (fuel ticks : Nat)
    (s : Run W (BlockEvent H)) : Option (Follower W H) :=
  runTicks sys fuel ticks { lastblock := 0, run := s }

/-! ## Observations on a tick -/

/-- The cursor a tick works with: `lastblock`, loaded from the ledger store when it is
unset (zero). -/
def cursorOf {W H : Type} (sys : BlockSys W H) (st : Follower W H) : Int :=
  if st.lastblock = 0 then sys.Last st.run.world else st.lastblock

/-- The events with which a tick that reaches the loop begins: the load of an unset cursor
and the peak query. -/
def tickHead {W H : Type} (sys : BlockSys W H) (st : Follower W H) (blockPeak : Int) :
    List (BlockEvent H) :=
  (if st.lastblock = 0 then [.Last (sys.Last st.run.world)] else []) ++
    [.GetBlockPeak (.ok blockPeak)]

/-- The events of consecutive successful iterations of the loop, starting at header `num`:
each header is fetched and then appended. -/
def okSteps {H : Type} : Int → List H → List (BlockEvent H)
  | _, [] => []
  | num, h :: hs =>
    [.GetBlockHeaderUnsafe (toUint64 num) (.ok h), .AddBlock h none] ++ okSteps (num + 1) hs

/-- Whether the event is a header fetch or an append that returned an error. -/
def BlockEvent.failed {H : Type} : BlockEvent H → Bool
  | .GetBlockHeaderUnsafe _ (.error _) => true
  | .AddBlock _ (some _) => true
  | _ => false

/-- The header numbers fetched in a trace, in order. -/
def fetchedNumbers {H : Type} (tr : List (BlockEvent H)) : List Nat :=
  tr.filterMap fun e =>
    match e with
    | .GetBlockHeaderUnsafe num _ => some num
    | _ => none

/-- The headers handed to `AddBlock` in a trace, in order. -/
def appendedHeaders {H : Type} (tr : List (BlockEvent H)) : List H :=
  tr.filterMap fun e =>
    match e with
    | .AddBlock h _ => some h
    | _ => none

/-- The integers `lo + 1, lo + 2, ..., lo + count`. -/
def heightsAfter : Int → Nat → List Int
  | _, 0 => []
  | lo, count + 1 => (lo + 1) :: heightsAfter (lo + 1) count

/-- The three ways the loop of a tick, entered at header `num` with target `target`, can
end after `hs.length` successful iterations: the condition fails past the target; a fetch
fails; an append fails and the cursor is reset to the store's last height. -/
def LoopOutcome {W H : Type} (sys : BlockSys W H) (target num : Int) (st : Follower W H)
    (exit : LoopExit) (st' : Follower W H) (hs : List H) : Prop :=
  (exit = .completed ∧ num + hs.length = target + 1 ∧
    st'.run.trace = st.run.trace ++ okSteps num hs ∧ st'.lastblock = st.lastblock) ∨
  (exit = .aborted ∧ num + hs.length ≤ target ∧ st'.lastblock = st.lastblock ∧
    ∃ e, st'.run.trace = st.run.trace ++ okSteps num hs ++
      [.GetBlockHeaderUnsafe (toUint64 (num + hs.length)) (.error e),
       .Error "Couldn't download block header %v"]) ∨
  (exit = .aborted ∧ num + hs.length ≤ target ∧ st'.lastblock = sys.Last st'.run.world ∧
    ∃ h e, st'.run.trace = st.run.trace ++ okSteps num hs ++
      [.GetBlockHeaderUnsafe (toUint64 (num + hs.length)) (.ok h), .AddBlock h (some e),
       .Error "Couldn't add block %v %v: %v", .Last (sys.Last st'.run.world)])

/-- The four ways a tick with cursor `c`, peak `blockPeak` and target `target` can end once
the peak is known: nothing to do; all headers up to the target fetched and appended; a
fetch failed; an append failed. -/
def TickOutcome {W H : Type} (sys : BlockSys W H) (st : Follower W H) (blockPeak c target : Int)
    (st' : Follower W H) : Prop :=
  (target ≤ c ∧ st'.lastblock = c ∧ st'.run.trace = st.run.trace ++ tickHead sys st blockPeak) ∨
  (c < target ∧ ∃ hs : List H, c + hs.length = target ∧ st'.lastblock = target ∧
    ∃ lastn, st'.run.trace = st.run.trace ++ tickHead sys st blockPeak ++ okSteps (c + 1) hs ++
      [.Last lastn, .Info "Added block(s) %v-%v, last valid %v", .storeLastValid]) ∨
  (c < target ∧ ∃ hs : List H, c + 1 + hs.length ≤ target ∧ st'.lastblock = c ∧
    ∃ e, st'.run.trace = st.run.trace ++ tickHead sys st blockPeak ++ okSteps (c + 1) hs ++
      [.GetBlockHeaderUnsafe (toUint64 (c + 1 + hs.length)) (.error e),
       .Error "Couldn't download block header %v"]) ∨
  (c < target ∧ ∃ hs : List H, c + 1 + hs.length ≤ target ∧
    st'.lastblock = sys.Last st'.run.world ∧
    ∃ h e, st'.run.trace = st.run.trace ++ tickHead sys st blockPeak ++ okSteps (c + 1) hs ++
      [.GetBlockHeaderUnsafe (toUint64 (c + 1 + hs.length)) (.ok h), .AddBlock h (some e),
       .Error "Couldn't add block %v %v: %v", .Last (sys.Last st'.run.world)])

/-! ## Observations on the traces of the dispatcher and the writer -/

/-- The values put into response slots in a trace, with their slots, in order. -/
def delivered {V : Type} (tr : List (DispatchEvent V)) : List (Nat × Response V) :=
  tr.filterMap fun e =>
    match e with
    | .enqueueResponse slot value => some (slot, value)
    | _ => none

/-- The slots closed in a trace, in order. -/
def closedSlots {V : Type} (tr : List (DispatchEvent V)) : List Nat :=
  tr.filterMap fun e =>
    match e with
    | .close slot => some slot
    | _ => none

/-- Whether the event registers a call in the call table. -/
def SendEvent.isAddCall {V : Type} : SendEvent V → Bool
  | .addCall _ => true
  | _ => false

/-- Whether the event increments the byte counter. -/
def SendEvent.isIncrement {V : Type} : SendEvent V → Bool
  | .incrementTotalBytes _ => true
  | _ => false

/-- The data handed to the transport's `Write` in a trace, in order. -/
def writesOf {V : Type} (tr : List (SendEvent V)) : List (List Nat) :=
  tr.filterMap fun e =>
    match e with
    | .Write data _ _ => some data
    | _ => none

/-! ## Regular expressions

The fragment of Go's `regexp` syntax that `domainPattern` is written in, with the
leftmost-first semantics of the package: among the matches that start earliest, the one a
backtracking search finds first.  Strings are sequences of Unicode characters (Go strings
that are valid UTF-8). -/

/-- The character classes of `domainPattern`. -/
inductive CharClass where
  /-- The class `.`: any character but the line feed (flag `s` is off). -/
  | anyNotNL
  /-- The class `[\d]`: an ASCII digit. -/
  | digit
deriving DecidableEq, Repr

/-- Whether a character is in the class. -/
def CharClass.test : CharClass → Char → Bool
  | .anyNotNL, c => c != '\n'
  | .digit, c => c.isDigit

/-- The regular expressions of the fragment. -/
inductive Regex where
  /-- The anchor `^`: the beginning of the text (flag `m` is off). -/
  | bol
  /-- The anchor `$`: the end of the text (flag `m` is off). -/
  | eol
  /-- A literal string. -/
  | lit (s : List Char)
  /-- One or more characters of a class, as many as possible first: `c+`. -/
  | plus (cls : CharClass)
  /-- Concatenation. -/
  | seq (a b : Regex)
  /-- Alternation, the left alternative first: `a|b`. -/
  | alt (a b : Regex)
  /-- Zero or one, one first: `a?`. -/
  | opt (a : Regex)
  /-- The capturing group with the given number: `(a)`. -/
  | group (i : Nat) (a : Regex)
deriving DecidableEq, Repr

/-- A position of the backtracking search: the number of characters before it, the text
after it and the groups captured so far (latest first). -/
structure MatchState where
  pos : Nat
  rest : List Char
  caps : List (Nat × List Char)
deriving DecidableEq, Repr

/-- The texts left after one or more leading characters of the class, the longest run of
class characters first. -/
def plusRests (cls : CharClass) : List Char → List (List Char)
  | [] => []
  | c :: cs => if cls.test c then plusRests cls cs ++ [cs] else []

/-- The ways a regular expression matches at a position, in the order in which a
backtracking search tries them. -/
def Regex.run : Regex → MatchState → List MatchState
  | .bol, m => if m.pos = 0 then [m] else []
  | .eol, m => if m.rest = [] then [m] else []
  | .lit s, m =>
    if s.isPrefixOf m.rest then
      [{ m with pos := m.pos + s.length, rest := m.rest.drop s.length }]
    else []
  | .plus cls, m =>
    (plusRests cls m.rest).map fun rest =>
      { m with pos := m.pos + (m.rest.length - rest.length), rest := rest }
  | .seq a b, m => (a.run m).flatMap b.run
  | .alt a b, m => a.run m ++ b.run m
  | .opt a, m => a.run m ++ [m]
  | .group i a, m =>
    (a.run m).map fun m' => { m' with caps := (i, m.rest.take (m'.pos - m.pos)) :: m'.caps }

/-- The leftmost-first match of the expression in the text from position `pos` on: the
start of the match and the state at its end. -/
def Regex.search (re : Regex) : Nat → List Char → Option (Nat × List Char × MatchState)
  | pos, rest =>
    match (re.run { pos := pos, rest := rest, caps := [] }).head? with
    | some m => some (pos, rest, m)
    | none =>
      match rest with
      | [] => none
      | _ :: cs => re.search (pos + 1) cs

/-- Go `re.FindStringSubmatch(s)` for an expression with `groups` capturing groups: the
empty slice when there is no match, else the matched text followed by the text of each
group (empty for a group that took no part in the match). -/
def FindStringSubmatch (re : Regex) (groups : Nat) (s : String) : List String :=
  match re.search 0 s.data with
  | none => []
  | some (start, rest, m) =>
    String.mk (rest.take (m.pos - start)) ::
      (List.range groups).map fun i => String.mk ((m.caps.lookup (i + 1)).getD [])

/-! ## The fetch command -/

/-- The expression `domainPattern`,
`^(http|https|diode):\/\/(.+)\.(diode|diode\.link|diode\.ws)(:[\d]+)?$`. -/
def domainPattern : Regex :=
  .seq .bol
    (.seq (.group 1 (.alt (.lit "http".data) (.alt (.lit "https".data) (.lit "diode".data))))
      (.seq (.lit "://".data)
        (.seq (.group 2 (.plus .anyNotNL))
          (.seq (.lit ".".data)
            (.seq (.group 3 (.alt (.lit "diode".data)
                (.alt (.lit "diode.link".data) (.lit "diode.ws".data))))
              (.seq (.opt (.group 4 (.seq (.lit ":".data) (.plus .digit)))) .eol))))))

/-- The map `allowedMethod`. -/
def allowedMethod : GoMap :=
  ⟨[("GET", true), ("POST", true), ("PUT", true), ("DELETE", true), ("OPTION", true),
    ("PATCH", false)]⟩

/-- The errors `fetchHandler` returns: its three error variables and the errors of its
collaborators. -/
inductive FetchError where
  | errUrlRequired
  | errMethodNotAllowed
  | errWeb2URL
  | failure (text : String)
deriving DecidableEq, Repr

/-- The fields of `fetchConfig` read before the request is made. -/
structure FetchConfig where
  Method : String
  URL : String
deriving DecidableEq, Repr

/-- The calls of `fetchHandler`, in program order: the start of the session and the
request with its method and URI. -/
inductive FetchEvent where
  | appStart (err : Option String)
  | request (method : String) (uri : String) (err : Option String)
deriving DecidableEq, Repr

/-- The collaborators of `fetchHandler`: `strings.ToUpper`, `app.Start` and the rest of the
handler after the session is started (the proxy set-up, the HTTP round trip and the output
of the response), which is given the method and the URI. -/
structure FetchSys (W : Type) where
  ToUpper : String → String
  appStart : W → Option String × W
  roundTrip : W → String → String → Option String × W

/-- The request URI `fetchHandler` computes from the URL, or the error it returns before. -/
def requestURI (url : String) : Except FetchError String :=
  if url.length = 0 then .error .errUrlRequired
  else
    let parsedURL := FindStringSubmatch domainPattern 4 url
    if parsedURL.length = 0 then .error .errWeb2URL
    else if parsedURL[1]? = some "diode" then .ok ("http://" ++ String.mk (url.data.drop 8))
    else .ok url

/-- The function `fetchHandler`: the returned error (none for nil) and the run. -/
def fetchHandler {W : Type} (sys : FetchSys W) (fetchCfg : FetchConfig) (s : Run W FetchEvent) :
    Option FetchError × Run W FetchEvent :=
  match requestURI fetchCfg.URL with
  | .error err => (some err, s)
  | .ok uri =>
    let method := sys.ToUpper fetchCfg.Method
    match allowedMethod.entries.lookup method with
    | none => (some .errMethodNotAllowed, s)
    | some false => (some .errMethodNotAllowed, s)
    | some true =>
      let a := sys.appStart s.world
      let s := s.call (.appStart a.1) a.2
      match a.1 with
      | some err => (some (.failure err), s)
      | none =>
        let r := sys.roundTrip s.world method uri
        let s := s.call (.request method uri r.1) r.2
        (r.1.map .failure, s)

/-! ## The shape of overlay URLs -/

/-- The schemes of an overlay URL. -/
def overlaySchemes : List (List Char) := ["http".data, "https".data, "diode".data]

/-- The suffixes of an overlay URL. -/
def overlaySuffixes : List (List Char) := ["diode".data, "diode.link".data, "diode.ws".data]

/-- The optional port of an overlay URL as text: a colon and the digits. -/
def portText : Option (List Char) → List Char
  | none => []
  | some digits => ":".data ++ digits

/-- The URL `<scheme>://<name>.<suffix>[:<digits>]` with the given parts. -/
def overlayURL (scheme name suffix : List Char) (port : Option (List Char)) : List Char :=
  scheme ++ ("://".data ++ (name ++ (".".data ++ (suffix ++ portText port))))

/-- A port, when there is one, is a non-empty string of ASCII digits. -/
def ValidPort (port : Option (List Char)) : Prop :=
  ∀ digits, port = some digits → digits ≠ [] ∧ ∀ c ∈ digits, c.isDigit = true

/-- The URL is `<scheme>://<name>.<suffix>[:<digits>]` with the scheme one of http, https,
diode, a non-empty name that satisfies `nameOk`, the suffix one of diode, diode.link,
diode.ws and, optionally, a port of digits. -/
def OverlayShape (nameOk : List Char → Prop) (scheme : List Char) (url : String) : Prop :=
  ∃ name suffix port, scheme ∈ overlaySchemes ∧ name ≠ [] ∧ nameOk name ∧
    suffix ∈ overlaySuffixes ∧ ValidPort port ∧ url.data = overlayURL scheme name suffix port

/-- The shape of an overlay URL in the words of the specification: any non-empty name. -/
def ClaimedShape (scheme : List Char) (url : String) : Prop :=
  OverlayShape (fun _ => True) scheme url

/-- The shape of the URLs `domainPattern` matches: the name is non-empty and holds no
line feed. -/
def AcceptedShape (scheme : List Char) (url : String) : Prop :=
  OverlayShape (fun name => ∀ c ∈ name, c ≠ '\n') scheme url

/-! ## Observations on the traces of the request handler -/

/-- The events a run added to the trace it started from. -/
def Run.since {W E : Type} (r s : Run W E) : List E := r.trace.drop s.trace.length

/-- The `ResponsePortOpen` calls of a trace. -/
def responsesOf (tr : List PortEvent) : List (PortOpen × Option PortOpenError) :=
  tr.filterMap fun e =>
    match e with
    | .ResponsePortOpen p err => some (p, err)
    | _ => none

/-- Whether the event is a local dial. -/
def PortEvent.isDial : PortEvent → Bool
  | .DialTimeout _ _ => true
  | _ => false

/-- Whether the event registers a stream entry. -/
def PortEvent.isSetDevice : PortEvent → Bool
  | .SetDevice _ (some _) => true
  | _ => false

/-- Whether the event is a response carrying one of the two config-list errors. -/
def PortEvent.isListError : PortEvent → Bool
  | .ResponsePortOpen _ (some (.onBlackList _)) => true
  | .ResponsePortOpen _ (some (.notInWhiteList _)) => true
  | _ => false

/-- Whether the event is a lookup of the published port. -/
def PortEvent.isLookup : PortEvent → Bool
  | .GetPublishedPort _ _ => true
  | _ => false

/-! ## Example systems -/

/-- A published port with local source 8080 and an empty per-port allowlist. -/
def demoPort (mode : PublishedMode) : PublishedPort :=
  { Src := 8080, Mode := mode, IsWhitelisted := fun _ => false }

/-- A port pool publishing port 80 as `demoPort mode`; the ledger answers `ledger`, the
dial answers `dial`. -/
def demoPortSys (mode : PublishedMode) (ledger : Except String Bool) (dial : Except String Nat) :
    PortSys Unit where
  GetPublishedPort := fun _ p =>
    if p = 80 then some (demoPort mode) else none
  DecodeString := fun _ => []
  IsAccessWhitelisted := fun w _ _ => (ledger, w)
  DialTimeout := fun w _ => (dial, w)
  GetDeviceKey := fun r => toString r
  GetDevice := fun _ _ => none
  Closed := fun _ => false
  perform := fun _ w => w

/-- The empty run. -/
def Run.start {E : Type} : Run Unit E := { world := (), trace := [] }

/-- The request of scenario 2: deviceB opens port 80 with reference 1. -/
def demoOpenB : PortOpen := { Ref := 1, Port := 80, DeviceID := "deviceB", Err := none }

/-- A config whose blocklist and allowlist both hold deviceB. -/
def demoCfgBoth : Config :=
  { Blacklists := ⟨[("deviceB", true)]⟩, Whitelists := ⟨[("deviceB", true)]⟩, FleetAddr := [] }

/-- A config with an empty blocklist and an allowlist holding deviceA only. -/
def demoCfgAllowA : Config :=
  { Blacklists := ⟨[]⟩, Whitelists := ⟨[("deviceA", true)]⟩, FleetAddr := [] }

/-- A config whose blocklist holds deviceX only and whose allowlist holds deviceA only. -/
def demoCfgBlockX : Config :=
  { Blacklists := ⟨[("deviceX", true)]⟩, Whitelists := ⟨[("deviceA", true)]⟩, FleetAddr := [] }

/-- A config with both lists empty. -/
def demoCfgOpen : Config := { Blacklists := ⟨[]⟩, Whitelists := ⟨[]⟩, FleetAddr := [] }

/-- A ledger whose peak is 110 with confirmation size 2.  Headers are their numbers, the
world is the list of appended headers, `Last` is the last appended header (100 for an empty
store); the fetch of header `badFetch` and the append of header `badAdd` fail. -/
def demoBlockSys (badFetch badAdd : Nat) : BlockSys (List Nat) Nat where
  confirmationSize := 2
  bqIsNil := fun _ => false
  Last := fun w => (w.getLast?.getD 100 : Nat)
  GetBlockPeak := fun w => (.ok 110, w)
  GetBlockHeaderUnsafe := fun w n => (if n = badFetch then .error "timeout" else .ok n, w)
  AddBlock := fun w h _ => if h = badAdd then (some "uncle", w) else (none, w ++ [h])
  perform := fun _ w => w

/-- The ledger of `demoBlockSys` in which the append of header 102 fails and the store's
`Last` answers 108 whatever was appended. -/
def demoPeakStoreSys : BlockSys (List Nat) Nat :=
  { demoBlockSys 0 102 with Last := fun _ => 108 }

/-- A follower whose cursor is 100 on an empty store. -/
def demoFollower : Follower (List Nat) Nat := { lastblock := 100, run := { world := [], trace := [] } }

/-- A dispatcher for which every frame is a response to call 1, whose response slot is
channel 5; `isError` tells whether frames are error responses, `parse` is the call's
parse callback. -/
def demoDispatchSys (isError : Bool) (parse : Option (List Nat → Except String Nat)) :
    DispatchSys Unit Nat where
  port := demoPortSys .PublicPublishedMode (.ok true) (.ok 7)
  cfg := demoCfgOpen
  IsResponse := fun _ => true
  ResponseID := fun _ => 1
  IsError := fun _ => isError
  ReadAsError := fun _ => { Message := "not found" }
  ReadAsInboundRequest := fun _ => .error "response"
  firstCallByID := fun w _ =>
    ({ id := 1, method := "getblock", data := [], Parse := parse, response := some 5 }, w)
  perform := fun _ w => w

/-- A frame of three bytes. -/
def demoMessage : Message := { Len := 3, Buffer := [1, 2, 3] }

/-- A parse callback that returns the number of bytes. -/
def demoParseOk : List Nat → Except String Nat := fun b => .ok b.length

/-- A parse callback that fails. -/
def demoParseBad : List Nat → Except String Nat := fun _ => .error "bad rlp"

/-- A reader whose transport returns the given error on every read; neither the transport
session nor the client is closed, and a reconnect answers `reconnects`. -/
def demoRecvSys (err : TransportError) (reconnects : Bool) : RecvSys Unit where
  readMessage := fun w => (.error err, w)
  sClosed := fun _ => false
  Reconnect := fun w => (reconnects, w)
  Closed := fun _ => false
  perform := fun _ w => w

/-- A writer that is connected and whose transport takes `n` bytes of every write without
error.  The world is the call table, as the list of the ids of the registered calls. -/
def demoSendSys (n : Int) : SendSys (List Nat) Nat where
  Reconnecting := fun _ => false
  Write := fun w _ => ((n, none), w)
  enableMetrics := true
  perform := fun e w =>
    match e with
    | .addCall call => w ++ [call.id]
    | _ => w

/-- A call with id 7 and four bytes of data. -/
def demoCall : Call Nat :=
  { id := 7, method := "portsend", data := [1, 2, 3, 4], Parse := none, response := some 5 }

/-- A fetch environment in which the session starts and the round trip succeeds. -/
def demoFetchSys : FetchSys Unit where
  ToUpper := fun m => m.toUpper
  appStart := fun w => (none, w)
  roundTrip := fun w _ _ => (none, w)

/-! # Properties -/

/-! ## Configuration lists -/

theorem GoMap.len_pos_of_get {m : GoMap} {k : String} (h : m.get k = true) : m.len > 0 := by
  rcases m with ⟨l⟩
  cases l with
  | nil => simp [GoMap.get] at h
  | cons a t => simp [GoMap.len]

@[simp] theorem Run.call_world {W E : Type} (e : E) (w : W) (s : Run W E) :
    (s.call e w).world = w := rfl

@[simp] theorem Run.call_trace {W E : Type} (e : E) (w : W) (s : Run W E) :
    (s.call e w).trace = s.trace ++ [e] := rfl

@[simp] theorem Run.emit_world {W E : Type} (perform : E → W → W) (e : E) (s : Run W E) :
    (s.emit perform e).world = perform e s.world := rfl

@[simp] theorem Run.emit_trace {W E : Type} (perform : E → W → W) (e : E) (s : Run W E) :
    (s.emit perform e).trace = s.trace ++ [e] := rfl

theorem Run.since_of_trace_eq {W E : Type} {r s : Run W E} {new : List E}
    (h : r.trace = s.trace ++ new) : r.since s = new := by
  simp [Run.since, h]

theorem Run.since_emit {W E : Type} (perform : E → W → W) (e : E) (s : Run W E) :
    (s.emit perform e).since s = [e] := by
  simp [Run.since, Run.emit]

/-- C1: an inbound PortOpen that decoded without error and whose device is marked true on
the config blocklist is answered with the blocklist error and nothing else happens: the
outcome is the same for every allowlist, and the only call made is that one response
(no port lookup, no dial, no stream entry). -/
theorem blocklist_rejects_before_allowlist {W : Type} (sys : PortSys W) (cfg : Config)
    (portOpen : PortOpen) (s : Run W PortEvent) (allow : GoMap)
    (hdec : portOpen.Err = none) (hblock : cfg.Blacklists.get portOpen.DeviceID = true) :
    let r := handleInboundRequest sys { cfg with Whitelists := allow } (.portOpen portOpen) s
    let answer := PortEvent.ResponsePortOpen portOpen (some (.onBlackList portOpen.DeviceID))
    r = s.emit sys.perform answer ∧ r.trace = s.trace ++ [answer] ∧
      (r.since s).any PortEvent.isLookup = false ∧ (r.since s).any PortEvent.isDial = false ∧
      (r.since s).any PortEvent.isSetDevice = false := by
  intro r answer
  have hlen : cfg.Blacklists.len > 0 := GoMap.len_pos_of_get hblock
  have hr : r = s.emit sys.perform answer := by
    simp [r, answer, handleInboundRequest, hdec, checkLists, hlen, hblock]
  rw [hr, Run.since_emit]
  simp [Run.emit, answer, PortEvent.isLookup, PortEvent.isDial, PortEvent.isSetDevice]

/-- Scenario 2 of the specification: blocklist and allowlist both hold deviceB. -/
theorem blocklist_rejects_before_allowlist_witness :
    (handleInboundRequest (demoPortSys .PublicPublishedMode (.ok true) (.ok 7))
        { demoCfgBoth with Whitelists := ⟨[("deviceB", true)]⟩ } (.portOpen demoOpenB)
        Run.start).trace
      = [] ++ [PortEvent.ResponsePortOpen demoOpenB (some (.onBlackList "deviceB"))] :=
  (blocklist_rejects_before_allowlist (demoPortSys .PublicPublishedMode (.ok true) (.ok 7))
    demoCfgBoth demoOpenB Run.start ⟨[("deviceB", true)]⟩ rfl (by decide)).2.1

/-- C2, as stated, fails: with blocklist {deviceX} and allowlist {deviceA}, deviceB is not
on the blocklist, the allowlist is nonempty and does not hold deviceB, yet the request is
not answered with the allowlist error: the published port is looked up (and, the port
being public with an empty per-port list, the open is rejected by the per-port check). -/
theorem allowlist_skipped_when_blocklist_nonempty :
    demoCfgBlockX.Blacklists.get demoOpenB.DeviceID = false ∧
    demoCfgBlockX.Whitelists.len > 0 ∧
    demoCfgBlockX.Whitelists.get demoOpenB.DeviceID = false ∧
    (handleInboundRequest (demoPortSys .PublicPublishedMode (.ok true) (.ok 7)) demoCfgBlockX
        (.portOpen demoOpenB) Run.start).trace
      ≠ [PortEvent.ResponsePortOpen demoOpenB (some (.notInWhiteList "deviceB"))] ∧
    (handleInboundRequest (demoPortSys .PublicPublishedMode (.ok true) (.ok 7)) demoCfgBlockX
        (.portOpen demoOpenB) Run.start).trace
      = [PortEvent.GetPublishedPort 80 true,
         PortEvent.ResponsePortOpen demoOpenB (some (.notInWhitelist2 "deviceB"))] := by
  refine ⟨by decide, by decide, by decide, by decide, by decide⟩

/-- The dial goroutine never answers with a config-list error. -/
theorem dialLocal_no_list_error {W : Type} (sys : PortSys W) (portOpen : PortOpen)
    (publishedPort : PublishedPort) (s : Run W PortEvent) :
    ∃ new : List PortEvent, (dialLocal sys portOpen publishedPort s).trace = s.trace ++ new ∧
      new.any PortEvent.isListError = false := by
  cases hd : (sys.DialTimeout s.world (localHost publishedPort.Src)).1 with
  | error e =>
    refine ⟨[.DialTimeout (localHost publishedPort.Src) (.error e),
      .ResponsePortOpen portOpen (some (.dial e)), .Error "failed to connect local: %v"],
      ?_, ?_⟩
    · simp [dialLocal, hd, Run.emit, Run.call]
    · simp [PortEvent.isListError]
  | ok c =>
    refine ⟨[.DialTimeout (localHost publishedPort.Src) (.ok c),
      .ResponsePortOpen portOpen none,
      .SetDevice (sys.GetDeviceKey portOpen.Ref) (some (newDevice portOpen c)),
      .copyToSSL (newDevice portOpen c), .CloseDevice (newDevice portOpen c)], ?_, ?_⟩
    · simp [dialLocal, hd, Run.emit, Run.call]
    · simp [PortEvent.isListError]

/-- The part after the list check starts with the lookup of the published port and never
answers with a config-list error, whatever the config lists hold. -/
theorem openPublished_lookup_first {W : Type} (sys : PortSys W) (cfg : Config)
    (portOpen : PortOpen) (s : Run W PortEvent) :
    ∃ rest : List PortEvent,
      (openPublished sys cfg portOpen s).trace = s.trace ++
        (.GetPublishedPort (wrapInt portOpen.Port)
          (sys.GetPublishedPort s.world (wrapInt portOpen.Port)).isSome :: rest) ∧
      rest.any PortEvent.isListError = false := by
  cases hp : sys.GetPublishedPort s.world (wrapInt portOpen.Port) with
  | none =>
    refine ⟨[.ResponsePortOpen portOpen (some .errPortNotPublished),
      .Info "port was not published port = %v"], ?_, ?_⟩
    · simp [openPublished, hp, Run.emit, Run.call]
    · simp [PortEvent.isListError]
  | some pp =>
    by_cases hw : pp.IsWhitelisted portOpen.DeviceID = true
    · obtain ⟨new, h1, h2⟩ := dialLocal_no_list_error sys portOpen pp
        (s.call (.GetPublishedPort (wrapInt portOpen.Port) true) s.world)
      refine ⟨new, ?_, h2⟩
      simp only [openPublished, hp, hw, Option.isSome_some, Bool.not_true, Bool.false_eq_true,
        if_false, h1, Run.call_trace, List.append_assoc, List.singleton_append]
    · by_cases hm : pp.Mode = .ProtectedPublishedMode
      · cases hr : (sys.IsAccessWhitelisted s.world cfg.FleetAddr
            (copy20 (sys.DecodeString portOpen.DeviceID))).1 with
        | error e =>
          refine ⟨[.IsAccessWhitelisted cfg.FleetAddr
              (copy20 (sys.DecodeString portOpen.DeviceID)) (.error e),
            .ResponsePortOpen portOpen (some (.notInWhitelist1 portOpen.DeviceID))], ?_, ?_⟩
          · simp [openPublished, hp, hw, hm, hr, Run.emit, Run.call]
          · simp [PortEvent.isListError]
        | ok b =>
          cases b with
          | true =>
            obtain ⟨new, h1, h2⟩ := dialLocal_no_list_error sys portOpen pp
              ((s.call (.GetPublishedPort (wrapInt portOpen.Port) true) s.world).call
                (.IsAccessWhitelisted cfg.FleetAddr
                  (copy20 (sys.DecodeString portOpen.DeviceID)) (.ok true))
                (sys.IsAccessWhitelisted s.world cfg.FleetAddr
                  (copy20 (sys.DecodeString portOpen.DeviceID))).2)
            refine ⟨.IsAccessWhitelisted cfg.FleetAddr
              (copy20 (sys.DecodeString portOpen.DeviceID)) (.ok true) :: new, ?_, ?_⟩
            · simp only [openPublished, hp, hw, hm, hr, Option.isSome_some, Bool.not_false,
                if_true, Run.call_world]
              rw [h1]
              simp
            · simpa [PortEvent.isListError] using h2
          | false =>
            refine ⟨[.IsAccessWhitelisted cfg.FleetAddr
                (copy20 (sys.DecodeString portOpen.DeviceID)) (.ok false),
              .ResponsePortOpen portOpen (some (.notInWhitelist1 portOpen.DeviceID))], ?_, ?_⟩
            · simp [openPublished, hp, hw, hm, hr, Run.emit, Run.call]
            · simp [PortEvent.isListError]
      · refine ⟨[.ResponsePortOpen portOpen (some (.notInWhitelist2 portOpen.DeviceID))],
          ?_, ?_⟩
        · simp [openPublished, hp, hw, hm, Run.emit, Run.call]
        · simp [PortEvent.isListError]

/-- C2, amended: for an inbound PortOpen whose device is not on the config blocklist, the
allowlist is consulted only when the blocklist is empty.  With an empty blocklist and a
nonempty allowlist that does not hold the device, the request is answered with the
allowlist error and nothing else happens.  With a nonempty blocklist the allowlist plays no
part: whatever it holds, the run is the one obtained with an empty allowlist, its first
call is the lookup of the published port and no config-list error is answered after it. -/
theorem allowlist_consulted_only_without_blocklist {W : Type} (sys : PortSys W) (cfg : Config)
    (portOpen : PortOpen) (s : Run W PortEvent)
    (hdec : portOpen.Err = none) (hnot : cfg.Blacklists.get portOpen.DeviceID = false) :
    (cfg.Blacklists.len = 0 → cfg.Whitelists.len > 0 →
      cfg.Whitelists.get portOpen.DeviceID = false →
        handleInboundRequest sys cfg (.portOpen portOpen) s
          = s.emit sys.perform
              (.ResponsePortOpen portOpen (some (.notInWhiteList portOpen.DeviceID))) ∧
        (handleInboundRequest sys cfg (.portOpen portOpen) s).since s
          = [.ResponsePortOpen portOpen (some (.notInWhiteList portOpen.DeviceID))]) ∧
    (cfg.Blacklists.len > 0 → ∀ allow : GoMap,
      handleInboundRequest sys { cfg with Whitelists := allow } (.portOpen portOpen) s
        = openPublished sys { cfg with Whitelists := allow } portOpen s ∧
      handleInboundRequest sys { cfg with Whitelists := allow } (.portOpen portOpen) s
        = handleInboundRequest sys { cfg with Whitelists := ⟨[]⟩ } (.portOpen portOpen) s ∧
      ∃ rest : List PortEvent,
        (handleInboundRequest sys { cfg with Whitelists := allow } (.portOpen portOpen) s).since s
          = .GetPublishedPort (wrapInt portOpen.Port)
              (sys.GetPublishedPort s.world (wrapInt portOpen.Port)).isSome :: rest ∧
        rest.any PortEvent.isListError = false) := by
  refine ⟨fun h0 hpos hmiss => ?_, fun hpos allow => ?_⟩
  · have hr : handleInboundRequest sys cfg (.portOpen portOpen) s
        = s.emit sys.perform
            (.ResponsePortOpen portOpen (some (.notInWhiteList portOpen.DeviceID))) := by
      simp [handleInboundRequest, hdec, checkLists, h0, hpos, hmiss]
    rw [hr, Run.since_emit]
    exact ⟨rfl, rfl⟩
  · have hany : ∀ a : GoMap,
        handleInboundRequest sys { cfg with Whitelists := a } (.portOpen portOpen) s
          = openPublished sys { cfg with Whitelists := a } portOpen s := by
      intro a
      simp [handleInboundRequest, hdec, checkLists, hpos, hnot]
    refine ⟨hany allow, ?_, ?_⟩
    · rw [hany allow, hany ⟨[]⟩]
      rfl
    · obtain ⟨rest, h1, h2⟩ := openPublished_lookup_first sys
        { cfg with Whitelists := allow } portOpen s
      rw [hany allow]
      exact ⟨rest, Run.since_of_trace_eq h1, h2⟩

/-- Both halves of the amended C2 on concrete configurations: an empty blocklist with the
allowlist {deviceA}, and the blocklist {deviceX} with the allowlist {deviceA}, which does
not hold the requesting deviceB. -/
theorem allowlist_consulted_only_without_blocklist_witness :
    (handleInboundRequest (demoPortSys .PublicPublishedMode (.ok true) (.ok 7)) demoCfgAllowA
        (.portOpen demoOpenB) Run.start).since Run.start
      = [.ResponsePortOpen demoOpenB (some (.notInWhiteList demoOpenB.DeviceID))] ∧
    handleInboundRequest (demoPortSys .PublicPublishedMode (.ok true) (.ok 7))
        { demoCfgBlockX with Whitelists := ⟨[("deviceA", true)]⟩ } (.portOpen demoOpenB)
        Run.start
      = handleInboundRequest (demoPortSys .PublicPublishedMode (.ok true) (.ok 7))
        { demoCfgBlockX with Whitelists := ⟨[]⟩ } (.portOpen demoOpenB) Run.start :=
  ⟨((allowlist_consulted_only_without_blocklist
      (demoPortSys .PublicPublishedMode (.ok true) (.ok 7)) demoCfgAllowA demoOpenB Run.start
      rfl (by decide)).1 (by decide) (by decide) (by decide)).2,
   ((allowlist_consulted_only_without_blocklist
      (demoPortSys .PublicPublishedMode (.ok true) (.ok 7)) demoCfgBlockX demoOpenB Run.start
      rfl (by decide)).2 (by decide) ⟨[("deviceA", true)]⟩).2.1⟩

/-! ## One response per PortOpen -/

/-- What the dial goroutine adds to the trace: one response, which is a success exactly
when the dial returned a connection. -/
theorem dialLocal_trace {W : Type} (sys : PortSys W) (portOpen : PortOpen)
    (publishedPort : PublishedPort) (s : Run W PortEvent) :
    ∃ (new : List PortEvent) (err : Option PortOpenError),
      (dialLocal sys portOpen publishedPort s).trace = s.trace ++ new ∧
      responsesOf new = [(portOpen, err)] ∧
      (err = none ↔ ∃ host conn, PortEvent.DialTimeout host (.ok conn) ∈ new) := by
  cases hd : (sys.DialTimeout s.world (localHost publishedPort.Src)).1 with
  | error e =>
    refine ⟨[.DialTimeout (localHost publishedPort.Src) (.error e),
      .ResponsePortOpen portOpen (some (.dial e)), .Error "failed to connect local: %v"],
      some (.dial e), ?_, ?_, ?_⟩
    · simp [dialLocal, hd, Run.emit, Run.call]
    · simp [responsesOf]
    · simp
  | ok c =>
    refine ⟨[.DialTimeout (localHost publishedPort.Src) (.ok c),
      .ResponsePortOpen portOpen none,
      .SetDevice (sys.GetDeviceKey portOpen.Ref) (some (newDevice portOpen c)),
      .copyToSSL (newDevice portOpen c), .CloseDevice (newDevice portOpen c)], none, ?_, ?_, ?_⟩
    · simp [dialLocal, hd, Run.emit, Run.call]
    · simp [responsesOf]
    · simp

/-- Events put in front of a run of the dial goroutine keep its single response, as long
as they are neither responses nor successful dials. -/
theorem dialLocal_trace_after {W : Type} (sys : PortSys W) (portOpen : PortOpen)
    (publishedPort : PublishedPort) (s s0 : Run W PortEvent) (pre : List PortEvent)
    (hs : s.trace = s0.trace ++ pre) (hpre : responsesOf pre = [])
    (hdial : ∀ h c, PortEvent.DialTimeout h (.ok c) ∉ pre) :
    ∃ (new : List PortEvent) (err : Option PortOpenError),
      (dialLocal sys portOpen publishedPort s).trace = s0.trace ++ new ∧
      responsesOf new = [(portOpen, err)] ∧
      (err = none ↔ ∃ host conn, PortEvent.DialTimeout host (.ok conn) ∈ new) := by
  obtain ⟨new, err, h1, h2, h3⟩ := dialLocal_trace sys portOpen publishedPort s
  refine ⟨pre ++ new, err, ?_, ?_, ?_⟩
  · rw [h1, hs, List.append_assoc]
  · simp only [responsesOf, List.filterMap_append] at h2 hpre ⊢
    rw [h2, hpre]
    rfl
  · rw [h3]
    constructor
    · rintro ⟨h, c, hm⟩
      exact ⟨h, c, List.mem_append_right _ hm⟩
    · rintro ⟨h, c, hm⟩
      rcases List.mem_append.mp hm with hm | hm
      · exact absurd hm (hdial h c)
      · exact ⟨h, c, hm⟩

/-- What the part after the list check adds to the trace. -/
theorem openPublished_trace {W : Type} (sys : PortSys W) (cfg : Config) (portOpen : PortOpen)
    (s : Run W PortEvent) :
    ∃ (new : List PortEvent) (err : Option PortOpenError),
      (openPublished sys cfg portOpen s).trace = s.trace ++ new ∧
      responsesOf new = [(portOpen, err)] ∧
      (err = none ↔ ∃ host conn, PortEvent.DialTimeout host (.ok conn) ∈ new) := by
  cases hp : sys.GetPublishedPort s.world (wrapInt portOpen.Port) with
  | none =>
    refine ⟨[.GetPublishedPort (wrapInt portOpen.Port) false,
      .ResponsePortOpen portOpen (some .errPortNotPublished),
      .Info "port was not published port = %v"], some .errPortNotPublished, ?_, ?_, ?_⟩
    · simp [openPublished, hp, Run.emit, Run.call]
    · simp [responsesOf]
    · simp
  | some pp =>
    by_cases hw : pp.IsWhitelisted portOpen.DeviceID = true
    · have := dialLocal_trace_after sys portOpen pp
        (s.call (.GetPublishedPort (wrapInt portOpen.Port) true) s.world) s
        [.GetPublishedPort (wrapInt portOpen.Port) true] (by simp [Run.call])
        (by simp [responsesOf]) (by simp)
      simpa [openPublished, hp, hw] using this
    · by_cases hm : pp.Mode = .ProtectedPublishedMode
      · cases hr : (sys.IsAccessWhitelisted s.world cfg.FleetAddr
            (copy20 (sys.DecodeString portOpen.DeviceID))).1 with
        | error e =>
          refine ⟨[.GetPublishedPort (wrapInt portOpen.Port) true,
            .IsAccessWhitelisted cfg.FleetAddr (copy20 (sys.DecodeString portOpen.DeviceID))
              (.error e),
            .ResponsePortOpen portOpen (some (.notInWhitelist1 portOpen.DeviceID))],
            some (.notInWhitelist1 portOpen.DeviceID), ?_, ?_, ?_⟩
          · simp [openPublished, hp, hw, hm, hr, Run.emit, Run.call]
          · simp [responsesOf]
          · simp
        | ok b =>
          cases b with
          | true =>
            have := dialLocal_trace_after sys portOpen pp
              ((s.call (.GetPublishedPort (wrapInt portOpen.Port) true) s.world).call
                (.IsAccessWhitelisted cfg.FleetAddr
                  (copy20 (sys.DecodeString portOpen.DeviceID)) (.ok true))
                (sys.IsAccessWhitelisted s.world cfg.FleetAddr
                  (copy20 (sys.DecodeString portOpen.DeviceID))).2) s
              [.GetPublishedPort (wrapInt portOpen.Port) true,
                .IsAccessWhitelisted cfg.FleetAddr
                  (copy20 (sys.DecodeString portOpen.DeviceID)) (.ok true)]
              (by simp [Run.call]) (by simp [responsesOf]) (by simp)
            simpa [openPublished, hp, hw, hm, hr, Run.call] using this
          | false =>
            refine ⟨[.GetPublishedPort (wrapInt portOpen.Port) true,
              .IsAccessWhitelisted cfg.FleetAddr (copy20 (sys.DecodeString portOpen.DeviceID))
                (.ok false),
              .ResponsePortOpen portOpen (some (.notInWhitelist1 portOpen.DeviceID))],
              some (.notInWhitelist1 portOpen.DeviceID), ?_, ?_, ?_⟩
            · simp [openPublished, hp, hw, hm, hr, Run.emit, Run.call]
            · simp [responsesOf]
            · simp
      · refine ⟨[.GetPublishedPort (wrapInt portOpen.Port) true,
          .ResponsePortOpen portOpen (some (.notInWhitelist2 portOpen.DeviceID))],
          some (.notInWhitelist2 portOpen.DeviceID), ?_, ?_, ?_⟩
        · simp [openPublished, hp, hw, hm, Run.emit, Run.call]
        · simp [responsesOf]
        · simp

/-- C3: on every path of the PortOpen branch (decode error, blocklist, allowlist, port not
published, per-port rejections (1) and (2), dial failure, success) the handler issues
exactly one `ResponsePortOpen`, for the very request it was given, and that response
carries no error exactly when the local dial returned a connection. -/
theorem exactly_one_port_open_response {W : Type} (sys : PortSys W) (cfg : Config)
    (portOpen : PortOpen) (s : Run W PortEvent) :
    ∃ err : Option PortOpenError,
      (handleInboundRequest sys cfg (.portOpen portOpen) s).trace
        = s.trace ++ (handleInboundRequest sys cfg (.portOpen portOpen) s).since s ∧
      responsesOf ((handleInboundRequest sys cfg (.portOpen portOpen) s).since s)
        = [(portOpen, err)] ∧
      (err = none ↔ ∃ host conn, PortEvent.DialTimeout host (.ok conn)
        ∈ (handleInboundRequest sys cfg (.portOpen portOpen) s).since s) := by
  have key : ∃ (new : List PortEvent) (err : Option PortOpenError),
      (handleInboundRequest sys cfg (.portOpen portOpen) s).trace = s.trace ++ new ∧
      responsesOf new = [(portOpen, err)] ∧
      (err = none ↔ ∃ host conn, PortEvent.DialTimeout host (.ok conn) ∈ new) := by
    cases he : portOpen.Err with
    | some e =>
      refine ⟨[.ResponsePortOpen portOpen (some (.decode e)),
        .Error "Failed to decode portopen request: %v"], some (.decode e), ?_, ?_, ?_⟩
      · simp [handleInboundRequest, he, Run.emit]
      · simp [responsesOf]
      · simp
    | none =>
      cases hc : checkLists cfg portOpen.DeviceID with
      | some err =>
        refine ⟨[.ResponsePortOpen portOpen (some err)], some err, ?_, ?_, ?_⟩
        · simp [handleInboundRequest, he, hc, Run.emit]
        · simp [responsesOf]
        · simp
      | none =>
        have := openPublished_trace sys cfg portOpen s
        simpa [handleInboundRequest, he, hc] using this
  obtain ⟨new, err, h1, h2, h3⟩ := key
  have hs := Run.since_of_trace_eq h1
  exact ⟨err, by rw [hs]; exact h1, by rw [hs]; exact h2, by rw [hs]; exact h3⟩

/-! ## The per-port check -/

/-- The dial goroutine starts with the dial. -/
theorem dialLocal_dials {W : Type} (sys : PortSys W) (portOpen : PortOpen)
    (publishedPort : PublishedPort) (s s0 : Run W PortEvent) (pre : List PortEvent)
    (hs : s.trace = s0.trace ++ pre) :
    ((dialLocal sys portOpen publishedPort s).since s0).any PortEvent.isDial = true := by
  obtain ⟨new, err, h1, h2, h3⟩ := dialLocal_trace sys portOpen publishedPort s
  have hnew : ∃ e, e ∈ new ∧ e.isDial = true := by
    cases hd : (sys.DialTimeout s.world (localHost publishedPort.Src)).1 with
    | error e =>
      have : (dialLocal sys portOpen publishedPort s).trace = s.trace ++
          [.DialTimeout (localHost publishedPort.Src) (.error e),
            .ResponsePortOpen portOpen (some (.dial e)),
            .Error "failed to connect local: %v"] := by
        simp [dialLocal, hd, Run.emit, Run.call]
      rw [h1] at this
      have := List.append_cancel_left this
      exact ⟨.DialTimeout (localHost publishedPort.Src) (.error e), by simp [this], rfl⟩
    | ok c =>
      have : (dialLocal sys portOpen publishedPort s).trace = s.trace ++
          [.DialTimeout (localHost publishedPort.Src) (.ok c),
            .ResponsePortOpen portOpen none,
            .SetDevice (sys.GetDeviceKey portOpen.Ref) (some (newDevice portOpen c)),
            .copyToSSL (newDevice portOpen c), .CloseDevice (newDevice portOpen c)] := by
        simp [dialLocal, hd, Run.emit, Run.call]
      rw [h1] at this
      have := List.append_cancel_left this
      exact ⟨.DialTimeout (localHost publishedPort.Src) (.ok c), by simp [this], rfl⟩
  obtain ⟨e, he, hdial⟩ := hnew
  have hsince : (dialLocal sys portOpen publishedPort s).since s0 = pre ++ new := by
    apply Run.since_of_trace_eq
    rw [h1, hs, List.append_assoc]
  rw [hsince, List.any_eq_true]
  exact ⟨e, List.mem_append_right _ he, hdial⟩

/-- C4: for an inbound PortOpen that passes the config lists and targets a published port
whose per-port check `IsWhitelisted` fails for the device: in protected mode the handler
asks the ledger `IsAccessWhitelisted(fleet, device)` and goes on to the local dial exactly
when the answer is `true` without error, answering "not in the whitelist (1)" otherwise;
in any other mode it answers "not in the whitelist (2)".  Neither rejection dials. -/
theorem per_port_check_gates_dial {W : Type} (sys : PortSys W) (cfg : Config)
    (portOpen : PortOpen) (s : Run W PortEvent) (publishedPort : PublishedPort)
    (hdec : portOpen.Err = none) (hlists : checkLists cfg portOpen.DeviceID = none)
    (hpub : sys.GetPublishedPort s.world (wrapInt portOpen.Port) = some publishedPort)
    (hfail : publishedPort.IsWhitelisted portOpen.DeviceID = false) :
    let r := handleInboundRequest sys cfg (.portOpen portOpen) s
    let device := copy20 (sys.DecodeString portOpen.DeviceID)
    let ledger := sys.IsAccessWhitelisted s.world cfg.FleetAddr device
    let s1 := s.call (.GetPublishedPort (wrapInt portOpen.Port) true) s.world
    let s2 := s1.call (.IsAccessWhitelisted cfg.FleetAddr device ledger.1) ledger.2
    (publishedPort.Mode = .ProtectedPublishedMode →
      (ledger.1 = .ok true →
        r = dialLocal sys portOpen publishedPort s2 ∧
        (r.since s).any PortEvent.isDial = true) ∧
      (ledger.1 ≠ .ok true →
        r = s2.emit sys.perform
          (.ResponsePortOpen portOpen (some (.notInWhitelist1 portOpen.DeviceID))) ∧
        (r.since s).any PortEvent.isDial = false)) ∧
    (publishedPort.Mode ≠ .ProtectedPublishedMode →
      r = s1.emit sys.perform
        (.ResponsePortOpen portOpen (some (.notInWhitelist2 portOpen.DeviceID))) ∧
      (r.since s).any PortEvent.isDial = false) := by
  intro r device ledger s1 s2
  have hr : r = openPublished sys cfg portOpen s := by
    simp [r, handleInboundRequest, hdec, hlists]
  refine ⟨fun hm => ⟨fun hok => ?_, fun hno => ?_⟩, fun hm => ?_⟩
  · have hr2 : r = dialLocal sys portOpen publishedPort s2 := by
      rw [hr]
      simp only [ledger, device] at hok
      simp [openPublished, hpub, hfail, hm, hok, s2, s1, ledger, device]
    refine ⟨hr2, ?_⟩
    rw [hr2]
    exact dialLocal_dials sys portOpen publishedPort s2 s
      [.GetPublishedPort (wrapInt portOpen.Port) true,
        .IsAccessWhitelisted cfg.FleetAddr device ledger.1] (by simp [s2, s1, Run.call])
  · have hr2 : r = s2.emit sys.perform
        (.ResponsePortOpen portOpen (some (.notInWhitelist1 portOpen.DeviceID))) := by
      rw [hr]
      simp only [ledger, device] at hno
      simp only [openPublished, hpub, hfail, hm, s2, s1, ledger, device, Run.call_world,
        Bool.not_false, if_true, Option.isSome_some]
    refine ⟨hr2, ?_⟩
    have : r.since s = [.GetPublishedPort (wrapInt portOpen.Port) true,
        .IsAccessWhitelisted cfg.FleetAddr device ledger.1,
        .ResponsePortOpen portOpen (some (.notInWhitelist1 portOpen.DeviceID))] := by
      apply Run.since_of_trace_eq
      rw [hr2]
      simp [s2, s1, Run.call, Run.emit]
    rw [this]
    simp [PortEvent.isDial]
  · have hr2 : r = s1.emit sys.perform
        (.ResponsePortOpen portOpen (some (.notInWhitelist2 portOpen.DeviceID))) := by
      rw [hr]
      simp [openPublished, hpub, hfail, hm, s1]
    refine ⟨hr2, ?_⟩
    have : r.since s = [.GetPublishedPort (wrapInt portOpen.Port) true,
        .ResponsePortOpen portOpen (some (.notInWhitelist2 portOpen.DeviceID))] := by
      apply Run.since_of_trace_eq
      rw [hr2]
      simp [s1, Run.call, Run.emit]
    rw [this]
    simp [PortEvent.isDial]

/-- Scenario 3 of the specification (protected port, ledger grants: the dial is attempted),
the same port with a ledger error, and a public port. -/
theorem per_port_check_gates_dial_witness :
    ((handleInboundRequest (demoPortSys .ProtectedPublishedMode (.ok true) (.ok 7)) demoCfgOpen
        (.portOpen demoOpenB) Run.start).since Run.start).any PortEvent.isDial = true ∧
    ((handleInboundRequest (demoPortSys .ProtectedPublishedMode (.error "rpc") (.ok 7))
        demoCfgOpen (.portOpen demoOpenB) Run.start).since Run.start).any PortEvent.isDial
      = false ∧
    ((handleInboundRequest (demoPortSys .PublicPublishedMode (.ok true) (.ok 7)) demoCfgOpen
        (.portOpen demoOpenB) Run.start).since Run.start).any PortEvent.isDial = false :=
  ⟨(((per_port_check_gates_dial (demoPortSys .ProtectedPublishedMode (.ok true) (.ok 7))
      demoCfgOpen demoOpenB Run.start (demoPort .ProtectedPublishedMode) rfl rfl rfl rfl).1
      rfl).1 rfl).2,
   (((per_port_check_gates_dial (demoPortSys .ProtectedPublishedMode (.error "rpc") (.ok 7))
      demoCfgOpen demoOpenB Run.start (demoPort .ProtectedPublishedMode) rfl rfl rfl rfl).1
      rfl).2 (by decide)).2,
   ((per_port_check_gates_dial (demoPortSys .PublicPublishedMode (.ok true) (.ok 7))
      demoCfgOpen demoOpenB Run.start (demoPort .PublicPublishedMode) rfl rfl rfl rfl).2
      (by decide)).2⟩

/-! ## The block follower -/

theorem wrapInt_of_range {x : Int} (h1 : minInt ≤ x) (h2 : x ≤ maxInt) : wrapInt x = x := by
  simp only [wrapInt, minInt, maxInt] at *
  omega

theorem toUint64_of_nonneg {x : Int} (h1 : 0 ≤ x) (h2 : x ≤ maxInt) :
    (toUint64 x : Int) = x := by
  simp only [toUint64, maxInt] at *
  omega

/-- The loop of a tick always ends when it has one unit of fuel per header left to fetch
and one for the final test, and it ends in one of the three ways of `LoopOutcome`. -/
theorem fetchLoop_spec {W H : Type} (sys : BlockSys W H) (target : Int)
    (ht : target < maxInt) :
    ∀ (k : Nat) (num : Int) (st : Follower W H) (fuel : Nat),
      minInt ≤ num → num ≤ target + 1 → (target + 1 - num).toNat = k → k + 1 ≤ fuel →
      ∃ exit st' hs, fetchLoop sys target fuel num st = some (exit, st') ∧
        LoopOutcome sys target num st exit st' hs := by
  intro k
  induction k with
  | zero =>
    intro num st fuel hmin hle hk hfuel
    obtain ⟨f, rfl⟩ : ∃ f, fuel = f + 1 := ⟨fuel - 1, by omega⟩
    have hnum : ¬ num ≤ target := by omega
    refine ⟨.completed, st, [], ?_, Or.inl ⟨rfl, ?_, ?_, rfl⟩⟩
    · simp [fetchLoop, hnum]
    · simp only [List.length_nil, Nat.cast_zero]
      omega
    · simp [okSteps]
  | succ k ih =>
    intro num st fuel hmin hle hk hfuel
    obtain ⟨f, rfl⟩ : ∃ f, fuel = f + 1 := ⟨fuel - 1, by omega⟩
    have hnum : num ≤ target := by omega
    cases hr : (sys.GetBlockHeaderUnsafe st.run.world (toUint64 num)).1 with
    | error e =>
      simp only [fetchLoop, hnum, if_true, hr]
      refine ⟨_, _, [], rfl, Or.inr (Or.inl ⟨rfl, ?_, ?_, e, ?_⟩)⟩
      · simpa using hnum
      · rfl
      · simp [okSteps]
    | ok h =>
      cases ha : (sys.AddBlock (sys.GetBlockHeaderUnsafe st.run.world (toUint64 num)).2
          h false).1 with
      | some e =>
        simp only [fetchLoop, hnum, if_true, hr, Run.call_world, ha]
        refine ⟨_, _, [], rfl, Or.inr (Or.inr ⟨rfl, ?_, ?_, h, e, ?_⟩)⟩
        · simpa using hnum
        · rfl
        · simp [okSteps]
      | none =>
        have hw : wrapInt (num + 1) = num + 1 :=
          wrapInt_of_range (by omega) (by omega)
        obtain ⟨exit, st', hs, hrun, hout⟩ := ih (num + 1)
          { st with run := ((st.run.call (.GetBlockHeaderUnsafe (toUint64 num) (.ok h))
              (sys.GetBlockHeaderUnsafe st.run.world (toUint64 num)).2).call
              (.AddBlock h none)
              (sys.AddBlock (sys.GetBlockHeaderUnsafe st.run.world (toUint64 num)).2
                h false).2) } f (by omega) (by omega) (by omega) (by omega)
        refine ⟨exit, st', h :: hs, ?_, ?_⟩
        · simp only [fetchLoop, hnum, if_true, hr, Run.call_world, ha, hw]
          exact hrun
        · have hlen : num + ((h :: hs).length : Int) = num + 1 + (hs.length : Int) := by
            simp only [List.length_cons, Nat.cast_add, Nat.cast_one]
            omega
          have htr : ∀ rest : List (BlockEvent H),
              (st.run.trace ++ [.GetBlockHeaderUnsafe (toUint64 num) (.ok h)] ++
                [.AddBlock h none]) ++ okSteps (num + 1) hs ++ rest
              = st.run.trace ++ okSteps num (h :: hs) ++ rest := by
            intro rest
            simp [okSteps]
          rcases hout with ⟨h1, h2, h3, h4⟩ | ⟨h1, h2, h3, e, h4⟩ | ⟨h1, h2, h3, h', e, h4⟩
          · refine Or.inl ⟨h1, by rw [hlen]; exact h2, ?_, h4⟩
            rw [h3]
            simpa using htr []
          · refine Or.inr (Or.inl ⟨h1, by rw [hlen]; exact h2, h3, e, ?_⟩)
            rw [h4, hlen]
            exact htr _
          · refine Or.inr (Or.inr ⟨h1, by rw [hlen]; exact h2, h3, h', e, ?_⟩)
            rw [h4, hlen]
            exact htr _

/-- A tick that finds a ledger store and a peak ends, given one unit of fuel per header
between cursor and target and one more, in one of the four ways of `TickOutcome`. -/
theorem tick_spec {W H : Type} (sys : BlockSys W H) (st : Follower W H) (blockPeak : Int)
    (fuel : Nat) (hbq : sys.bqIsNil st.run.world = false)
    (hpeak : (sys.GetBlockPeak st.run.world).1 = .ok blockPeak)
    (hc : minInt ≤ cursorOf sys st)
    (ht1 : minInt ≤ blockPeak - sys.confirmationSize)
    (ht2 : blockPeak - sys.confirmationSize < maxInt)
    (hfuel : (blockPeak - sys.confirmationSize - cursorOf sys st).toNat + 1 ≤ fuel) :
    ∃ st', tick sys fuel st = some st' ∧
      TickOutcome sys st blockPeak (cursorOf sys st) (blockPeak - sys.confirmationSize) st' := by
  have hw : wrapInt (blockPeak - sys.confirmationSize) = blockPeak - sys.confirmationSize :=
    wrapInt_of_range ht1 (by omega)
  -- the state after the load of an unset cursor
  obtain ⟨st1, hst1, hl1, hw1, ht1'⟩ : ∃ st1 : Follower W H,
      st1 = (if st.lastblock = 0 then
        { lastblock := sys.Last st.run.world,
          run := st.run.call (.Last (sys.Last st.run.world)) st.run.world }
        else st) ∧ st1.lastblock = cursorOf sys st ∧ st1.run.world = st.run.world ∧
      st1.run.trace ++ [.GetBlockPeak (.ok blockPeak)]
        = st.run.trace ++ tickHead sys st blockPeak := by
    refine ⟨_, rfl, ?_, ?_, ?_⟩
    · by_cases h0 : st.lastblock = 0 <;> simp [h0, cursorOf]
    · by_cases h0 : st.lastblock = 0 <;> simp [h0]
    · by_cases h0 : st.lastblock = 0 <;> simp [h0, tickHead]
  have htick : tick sys fuel st =
      (if st1.lastblock ≥ blockPeak - sys.confirmationSize then
        some (Follower.mk st1.lastblock (st1.run.call (.GetBlockPeak (.ok blockPeak))
          (sys.GetBlockPeak st.run.world).2))
      else
        match fetchLoop sys (blockPeak - sys.confirmationSize) fuel (wrapInt (st1.lastblock + 1))
          (Follower.mk st1.lastblock (st1.run.call (.GetBlockPeak (.ok blockPeak))
            (sys.GetBlockPeak st.run.world).2)) with
        | none => none
        | some (.aborted, st) => some st
        | some (.completed, st) =>
          some { lastblock := blockPeak - sys.confirmationSize,
                 run := ((st.run.call (.Last (sys.Last st.run.world)) st.run.world).emit
                  sys.perform (.Info "Added block(s) %v-%v, last valid %v")).emit
                  sys.perform .storeLastValid }) := by
    simp only [tick, hbq, Bool.false_eq_true, if_false]
    rw [← hst1]
    simp only [hw1, hpeak, hw]
  rw [htick]
  by_cases hge : st1.lastblock ≥ blockPeak - sys.confirmationSize
  · simp only [hge, if_true]
    refine ⟨_, rfl, Or.inl ⟨by omega, hl1, ?_⟩⟩
    simp only [Run.call_trace]
    exact ht1'
  · simp only [hge, if_false]
    have hlt : cursorOf sys st < blockPeak - sys.confirmationSize := by omega
    have hw2 : wrapInt (st1.lastblock + 1) = cursorOf sys st + 1 := by
      rw [hl1]
      exact wrapInt_of_range (by omega) (by omega)
    rw [hw2]
    obtain ⟨exit, st2, hs, hrun, hout⟩ := fetchLoop_spec sys
      (blockPeak - sys.confirmationSize) ht2
      (blockPeak - sys.confirmationSize + 1 - (cursorOf sys st + 1)).toNat
      (cursorOf sys st + 1)
      (Follower.mk st1.lastblock (st1.run.call (.GetBlockPeak (.ok blockPeak))
        (sys.GetBlockPeak st.run.world).2)) fuel (by omega) (by omega) rfl (by omega)
    rw [hrun]
    rcases hout with ⟨h1, h2, h3, h4⟩ | ⟨h1, h2, h3, e, h4⟩ | ⟨h1, h2, h3, h, e, h4⟩
    · subst h1
      refine ⟨_, rfl, Or.inr (Or.inl ⟨hlt, hs, by omega, rfl, sys.Last st2.run.world, ?_⟩)⟩
      simp only [Run.emit_trace, Run.call_trace, h3, ht1', List.append_assoc]
      simp
    · subst h1
      refine ⟨_, rfl, Or.inr (Or.inr (Or.inl ⟨hlt, hs, h2, by rw [h3]; exact hl1, e, ?_⟩))⟩
      rw [h4]
      simp only [Run.call_trace, ht1']
    · subst h1
      refine ⟨_, rfl, Or.inr (Or.inr (Or.inr ⟨hlt, hs, h2, h3, h, e, ?_⟩))⟩
      rw [h4]
      simp only [Run.call_trace, ht1']

theorem failed_okSteps {H : Type} (hs : List H) :
    ∀ (num : Int) (e : BlockEvent H), e ∈ okSteps num hs → e.failed = false := by
  induction hs with
  | nil => intro num e he; simp [okSteps] at he
  | cons h hs ih =>
    intro num e he
    simp only [okSteps, List.mem_append, List.mem_cons, List.mem_singleton, List.not_mem_nil,
      or_false] at he
    rcases he with (rfl | rfl) | he
    · rfl
    · rfl
    · exact ih _ _ he

theorem fetchedNumbers_append {H : Type} (a b : List (BlockEvent H)) :
    fetchedNumbers (a ++ b) = fetchedNumbers a ++ fetchedNumbers b := by
  simp [fetchedNumbers]

theorem appendedHeaders_append {H : Type} (a b : List (BlockEvent H)) :
    appendedHeaders (a ++ b) = appendedHeaders a ++ appendedHeaders b := by
  simp [appendedHeaders]

theorem heightsAfter_succ (lo : Int) (count : Nat) :
    heightsAfter lo (count + 1) = (lo + 1) :: heightsAfter (lo + 1) count := by
  rfl

theorem fetchedNumbers_okSteps {H : Type} (hs : List H) :
    ∀ lo : Int, fetchedNumbers (okSteps (lo + 1) hs)
      = (heightsAfter lo hs.length).map toUint64 := by
  induction hs with
  | nil => intro lo; simp [okSteps, fetchedNumbers, heightsAfter]
  | cons h hs ih =>
    intro lo
    rw [List.length_cons, heightsAfter_succ, List.map_cons, ← ih (lo + 1)]
    simp [okSteps, fetchedNumbers]

theorem appendedHeaders_okSteps {H : Type} (hs : List H) :
    ∀ num : Int, appendedHeaders (okSteps num hs) = hs := by
  induction hs with
  | nil => intro num; simp [okSteps, appendedHeaders]
  | cons h hs ih =>
    intro num
    have := ih (num + 1)
    simp only [appendedHeaders] at this
    simp [okSteps, appendedHeaders, this]

theorem fetchedNumbers_tickHead {W H : Type} (sys : BlockSys W H) (st : Follower W H)
    (blockPeak : Int) : fetchedNumbers (tickHead sys st blockPeak) = [] := by
  by_cases h0 : st.lastblock = 0 <;> simp [tickHead, fetchedNumbers, h0]

theorem appendedHeaders_tickHead {W H : Type} (sys : BlockSys W H) (st : Follower W H)
    (blockPeak : Int) : appendedHeaders (tickHead sys st blockPeak) = [] := by
  by_cases h0 : st.lastblock = 0 <;> simp [tickHead, appendedHeaders, h0]

theorem storeLastValid_not_mem_tickHead {W H : Type} (sys : BlockSys W H) (st : Follower W H)
    (blockPeak : Int) : BlockEvent.storeLastValid ∉ tickHead sys st blockPeak := by
  by_cases h0 : st.lastblock = 0 <;> simp [tickHead, h0]

theorem storeLastValid_not_mem_okSteps {H : Type} (hs : List H) :
    ∀ num : Int, BlockEvent.storeLastValid ∉ okSteps num hs := by
  induction hs with
  | nil => intro num; simp [okSteps]
  | cons h hs ih => intro num; simp [okSteps, ih]

/-- C5: a tick that finds the ledger store and a peak `p` returns (given enough fuel), and
if no fetch and no append of the tick failed then, with `c` the cursor the tick works with
(`lastblock`, loaded from the store when unset) and `t = p - confirmationSize`: for `c ≥ t`
nothing is fetched or appended and the cursor stays `c`; for `c < t` the tick fetches header
`c + 1`, appends it, fetches `c + 2`, appends it, and so on up to `t`, each once, in
ascending order and nothing above `t`, and the cursor becomes `t`.  The range hypotheses
say that `c`, `t` are heights for which Go's `int` arithmetic does not wrap. -/
theorem tick_fetches_cursor_to_target {W H : Type} (sys : BlockSys W H) (st : Follower W H)
    (blockPeak : Int) (fuel : Nat) (hbq : sys.bqIsNil st.run.world = false)
    (hpeak : (sys.GetBlockPeak st.run.world).1 = .ok blockPeak)
    (hc : minInt ≤ cursorOf sys st)
    (ht1 : minInt ≤ blockPeak - sys.confirmationSize)
    (ht2 : blockPeak - sys.confirmationSize < maxInt)
    (hfuel : (blockPeak - sys.confirmationSize - cursorOf sys st).toNat + 1 ≤ fuel) :
    ∃ st', tick sys fuel st = some st' ∧
      ((∀ e ∈ st'.run.since st.run, e.failed = false) →
        (blockPeak - sys.confirmationSize ≤ cursorOf sys st →
          st'.lastblock = cursorOf sys st ∧
          fetchedNumbers (st'.run.since st.run) = [] ∧
          appendedHeaders (st'.run.since st.run) = []) ∧
        (cursorOf sys st < blockPeak - sys.confirmationSize →
          st'.lastblock = blockPeak - sys.confirmationSize ∧
          fetchedNumbers (st'.run.since st.run)
            = (heightsAfter (cursorOf sys st)
                (blockPeak - sys.confirmationSize - cursorOf sys st).toNat).map toUint64 ∧
          ∃ (hs : List H) (lastn : Int),
            hs.length = (blockPeak - sys.confirmationSize - cursorOf sys st).toNat ∧
            appendedHeaders (st'.run.since st.run) = hs ∧
            st'.run.since st.run = tickHead sys st blockPeak ++
              okSteps (cursorOf sys st + 1) hs ++
              [.Last lastn, .Info "Added block(s) %v-%v, last valid %v", .storeLastValid])) := by
  obtain ⟨st', hrun, hout⟩ := tick_spec sys st blockPeak fuel hbq hpeak hc ht1 ht2 hfuel
  refine ⟨st', hrun, fun hok => ?_⟩
  rcases hout with ⟨h1, h2, h3⟩ | ⟨h1, hs, h2, h3, lastn, h4⟩ | ⟨h1, hs, h2, h3, e, h4⟩ |
    ⟨h1, hs, h2, h3, h, e, h4⟩
  · have hs := Run.since_of_trace_eq h3
    refine ⟨fun _ => ⟨h2, ?_, ?_⟩, fun hlt => absurd h1 (by omega)⟩
    · rw [hs, fetchedNumbers_tickHead]
    · rw [hs, appendedHeaders_tickHead]
  · rw [List.append_assoc, List.append_assoc] at h4
    have hsince := Run.since_of_trace_eq h4
    have hlen : hs.length = (blockPeak - sys.confirmationSize - cursorOf sys st).toNat := by
      omega
    refine ⟨fun hle => absurd h1 (by omega), fun _ => ⟨h3, ?_, hs, lastn, hlen, ?_, ?_⟩⟩
    · rw [hsince, fetchedNumbers_append, fetchedNumbers_append, fetchedNumbers_tickHead,
        fetchedNumbers_okSteps, hlen]
      simp [fetchedNumbers]
    · rw [hsince, appendedHeaders_append, appendedHeaders_append, appendedHeaders_tickHead,
        appendedHeaders_okSteps]
      simp [appendedHeaders]
    · rw [hsince, List.append_assoc]
  · exfalso
    rw [List.append_assoc, List.append_assoc] at h4
    have hsince := Run.since_of_trace_eq h4
    have := hok (.GetBlockHeaderUnsafe (toUint64 (cursorOf sys st + 1 + hs.length)) (.error e))
      (by rw [hsince]; simp)
    simp [BlockEvent.failed] at this
  · exfalso
    rw [List.append_assoc, List.append_assoc] at h4
    have hsince := Run.since_of_trace_eq h4
    have := hok (.AddBlock h (some e)) (by rw [hsince]; simp)
    simp [BlockEvent.failed] at this

/-- Scenario: cursor 100, peak 110, confirmation size 2, no failure: headers 101 to 108 are
fetched and the cursor becomes 108. -/
theorem tick_fetches_cursor_to_target_witness :
    ∃ st', tick (demoBlockSys 0 0) 9 demoFollower = some st' ∧
      (∀ e ∈ st'.run.since demoFollower.run, e.failed = false) ∧
      st'.lastblock = 108 ∧
      fetchedNumbers (st'.run.since demoFollower.run)
        = [101, 102, 103, 104, 105, 106, 107, 108] := by
  obtain ⟨st', h, himp⟩ := tick_fetches_cursor_to_target (demoBlockSys 0 0) demoFollower 110 9
    rfl rfl (by decide) (by decide) (by decide) (by decide)
  have hev : ((tick (demoBlockSys 0 0) 9 demoFollower).map fun st =>
      (st.run.since demoFollower.run).all fun e => !e.failed) = some true := by decide
  rw [h] at hev
  have hok : ∀ e ∈ st'.run.since demoFollower.run, e.failed = false := by
    simpa using hev
  have hres := (himp hok).2 (by decide)
  exact ⟨st', h, hok, hres.1.trans (by decide), hres.2.1.trans (by decide)⟩

theorem failed_tickHead {W H : Type} (sys : BlockSys W H) (st : Follower W H)
    (blockPeak : Int) : ∀ e ∈ tickHead sys st blockPeak, e.failed = false := by
  intro e he
  by_cases h0 : st.lastblock = 0
  · simp only [tickHead, h0, if_true, List.mem_append, List.mem_singleton] at he
    rcases he with rfl | rfl <;> rfl
  · simp only [tickHead, h0, if_false, List.nil_append, List.mem_singleton] at he
    subst he
    rfl

theorem heightsAfter_snoc (count : Nat) :
    ∀ lo : Int, heightsAfter lo (count + 1) = heightsAfter lo count ++ [lo + count + 1] := by
  induction count with
  | zero => intro lo; simp [heightsAfter]
  | succ k ih =>
    intro lo
    rw [heightsAfter_succ, ih (lo + 1), heightsAfter_succ, List.cons_append]
    congr 2
    simp only [Nat.cast_succ, List.cons.injEq, and_true]
    omega

/-- C6, as stated, fails in one point: after a failed append the cursor is what the store's
`Last()` returns, and nothing in the tick keeps that away from the target.  Cursor 100,
peak 110, confirmation size 2 (target 108), the append of header 102 fails and `Last()`
answers 108: the tick ends with the cursor at 108. -/
theorem failed_append_cursor_follows_store :
    cursorOf demoPeakStoreSys demoFollower = 100 ∧
    (110 : Int) - demoPeakStoreSys.confirmationSize = 108 ∧
    ((tick demoPeakStoreSys 9 demoFollower).map fun st =>
      (st.run.since demoFollower.run, st.lastblock))
      = some ([.GetBlockPeak (.ok 110), .GetBlockHeaderUnsafe 101 (.ok 101),
        .AddBlock 101 none, .GetBlockHeaderUnsafe 102 (.ok 102), .AddBlock 102 (some "uncle"),
        .Error "Couldn't add block %v %v: %v", .Last 108], 108) := by
  refine ⟨by decide, by decide, by decide⟩

/-- C6, amended: a tick that finds the ledger store and a peak returns (given enough fuel),
and if some fetch or append of the tick failed then it failed at a header `n` with
`c < n ≤ t`: headers `c + 1` to `n` were fetched in order and none above `n`, only headers
below `n` (and, when the append failed, the header `n` itself) were handed to `AddBlock`,
and `storeLastValid` was not called.  After a failed fetch the cursor is still `c`, hence
not the target; after a failed append it is whatever the store's `Last()` returned. -/
theorem tick_aborts_at_first_failure {W H : Type} (sys : BlockSys W H) (st : Follower W H)
    (blockPeak : Int) (fuel : Nat) (hbq : sys.bqIsNil st.run.world = false)
    (hpeak : (sys.GetBlockPeak st.run.world).1 = .ok blockPeak)
    (hc : minInt ≤ cursorOf sys st)
    (ht1 : minInt ≤ blockPeak - sys.confirmationSize)
    (ht2 : blockPeak - sys.confirmationSize < maxInt)
    (hfuel : (blockPeak - sys.confirmationSize - cursorOf sys st).toNat + 1 ≤ fuel) :
    ∃ st', tick sys fuel st = some st' ∧
      ((∃ e ∈ st'.run.since st.run, e.failed = true) →
        ∃ (n : Int) (hs : List H),
          cursorOf sys st < n ∧ n ≤ blockPeak - sys.confirmationSize ∧
          (hs.length : Int) = n - cursorOf sys st - 1 ∧
          fetchedNumbers (st'.run.since st.run)
            = (heightsAfter (cursorOf sys st) (n - cursorOf sys st).toNat).map toUint64 ∧
          BlockEvent.storeLastValid ∉ st'.run.since st.run ∧
          ((∃ err, st'.run.since st.run = tickHead sys st blockPeak ++
                okSteps (cursorOf sys st + 1) hs ++
                [.GetBlockHeaderUnsafe (toUint64 n) (.error err),
                 .Error "Couldn't download block header %v"] ∧
              appendedHeaders (st'.run.since st.run) = hs ∧
              st'.lastblock = cursorOf sys st ∧
              st'.lastblock ≠ blockPeak - sys.confirmationSize) ∨
           (∃ h err, st'.run.since st.run = tickHead sys st blockPeak ++
                okSteps (cursorOf sys st + 1) hs ++
                [.GetBlockHeaderUnsafe (toUint64 n) (.ok h), .AddBlock h (some err),
                 .Error "Couldn't add block %v %v: %v", .Last (sys.Last st'.run.world)] ∧
              appendedHeaders (st'.run.since st.run) = hs ++ [h] ∧
              st'.lastblock = sys.Last st'.run.world))) := by
  obtain ⟨st', hrun, hout⟩ := tick_spec sys st blockPeak fuel hbq hpeak hc ht1 ht2 hfuel
  refine ⟨st', hrun, fun hbad => ?_⟩
  obtain ⟨bad, hmem, hfailed⟩ := hbad
  rcases hout with ⟨h1, h2, h3⟩ | ⟨h1, hs, h2, h3, lastn, h4⟩ | ⟨h1, hs, h2, h3, e, h4⟩ |
    ⟨h1, hs, h2, h3, h, e, h4⟩
  · exfalso
    rw [Run.since_of_trace_eq h3] at hmem
    rw [failed_tickHead sys st blockPeak bad hmem] at hfailed
    exact Bool.false_ne_true hfailed
  · exfalso
    rw [List.append_assoc, List.append_assoc] at h4
    rw [Run.since_of_trace_eq h4] at hmem
    rcases List.mem_append.mp hmem with hm | hm
    · rw [failed_tickHead sys st blockPeak bad hm] at hfailed
      exact Bool.false_ne_true hfailed
    · rcases List.mem_append.mp hm with hm | hm
      · rw [failed_okSteps hs _ bad hm] at hfailed
        exact Bool.false_ne_true hfailed
      · simp only [List.mem_cons, List.mem_singleton, List.not_mem_nil, or_false] at hm
        rcases hm with rfl | rfl | rfl <;> exact Bool.false_ne_true hfailed
  · have hsince : st'.run.since st.run = tickHead sys st blockPeak ++
        okSteps (cursorOf sys st + 1) hs ++
        [.GetBlockHeaderUnsafe (toUint64 (cursorOf sys st + 1 + hs.length)) (.error e),
         .Error "Couldn't download block header %v"] := by
      apply Run.since_of_trace_eq
      rw [h4, List.append_assoc, List.append_assoc, List.append_assoc]
    have hcount : (cursorOf sys st + 1 + hs.length - cursorOf sys st).toNat
        = hs.length + 1 := by omega
    refine ⟨cursorOf sys st + 1 + hs.length, hs, by omega, h2, by omega, ?_, ?_,
      Or.inl ⟨e, hsince, ?_, h3, by omega⟩⟩
    · rw [hsince, fetchedNumbers_append, fetchedNumbers_append, fetchedNumbers_tickHead,
        fetchedNumbers_okSteps, hcount, heightsAfter_snoc, List.map_append]
      simp only [fetchedNumbers, List.filterMap_cons, List.filterMap_nil, List.nil_append,
        List.map_cons, List.map_nil]
      congr 3
      omega
    · rw [hsince]
      simp [storeLastValid_not_mem_tickHead, storeLastValid_not_mem_okSteps]
    · rw [hsince, appendedHeaders_append, appendedHeaders_append, appendedHeaders_tickHead,
        appendedHeaders_okSteps]
      simp [appendedHeaders]
  · have hsince : st'.run.since st.run = tickHead sys st blockPeak ++
        okSteps (cursorOf sys st + 1) hs ++
        [.GetBlockHeaderUnsafe (toUint64 (cursorOf sys st + 1 + hs.length)) (.ok h),
         .AddBlock h (some e), .Error "Couldn't add block %v %v: %v",
         .Last (sys.Last st'.run.world)] := by
      apply Run.since_of_trace_eq
      rw [h4, List.append_assoc, List.append_assoc, List.append_assoc]
    have hcount : (cursorOf sys st + 1 + hs.length - cursorOf sys st).toNat
        = hs.length + 1 := by omega
    refine ⟨cursorOf sys st + 1 + hs.length, hs, by omega, h2, by omega, ?_, ?_,
      Or.inr ⟨h, e, hsince, ?_, h3⟩⟩
    · rw [hsince, fetchedNumbers_append, fetchedNumbers_append, fetchedNumbers_tickHead,
        fetchedNumbers_okSteps, hcount, heightsAfter_snoc, List.map_append]
      simp only [fetchedNumbers, List.filterMap_cons, List.filterMap_nil, List.nil_append,
        List.map_cons, List.map_nil]
      congr 3
      omega
    · rw [hsince]
      simp [storeLastValid_not_mem_tickHead, storeLastValid_not_mem_okSteps]
    · rw [hsince, appendedHeaders_append, appendedHeaders_append, appendedHeaders_tickHead,
        appendedHeaders_okSteps]
      simp [appendedHeaders]

/-- Scenario 6 of the specification: cursor 100, peak 110, confirmation size 2, the append
of header 101 succeeds and that of 102 fails.  The cursor becomes `Last()` (here 101), not
108, and header 103 is never fetched. -/
theorem tick_aborts_at_first_failure_witness :
    ∃ st', tick (demoBlockSys 0 102) 9 demoFollower = some st' ∧
      (∃ e ∈ st'.run.since demoFollower.run, e.failed = true) ∧
      st'.lastblock = 101 ∧
      fetchedNumbers (st'.run.since demoFollower.run) = [101, 102] := by
  obtain ⟨st', h, himp⟩ := tick_aborts_at_first_failure (demoBlockSys 0 102) demoFollower 110 9
    rfl rfl (by decide) (by decide) (by decide) (by decide)
  have hev : ((tick (demoBlockSys 0 102) 9 demoFollower).map fun st =>
      (st.run.since demoFollower.run, st.lastblock))
      = some ([.GetBlockPeak (.ok 110), .GetBlockHeaderUnsafe 101 (.ok 101),
        .AddBlock 101 none, .GetBlockHeaderUnsafe 102 (.ok 102), .AddBlock 102 (some "uncle"),
        .Error "Couldn't add block %v %v: %v", .Last 101], 101) := by decide
  rw [h] at hev
  simp only [Option.map_some', Option.some.injEq, Prod.mk.injEq] at hev
  have hbad : ∃ e ∈ st'.run.since demoFollower.run, e.failed = true :=
    ⟨.AddBlock 102 (some "uncle"), by rw [hev.1]; decide, rfl⟩
  refine ⟨st', h, hbad, hev.2, ?_⟩
  obtain ⟨n, hs, -, -, -, hf, -⟩ := himp hbad
  rw [hev.1]
  decide

/-! ## The dispatcher -/

/-- C7, as stated, fails in two ways.  A response frame that is not an error, matched to a
call with a response slot (channel 5) but without a parse callback, delivers nothing.  An
error frame matched to the same call delivers the server error, but the slot is not closed
after the delivery; neither is it after a parser error. -/
theorem response_not_always_delivered_and_closed :
    (demoDispatchSys false none).IsResponse demoMessage = true ∧
    ((demoDispatchSys false none).firstCallByID () 1).1.response = some 5 ∧
    delivered (dispatchMessage (demoDispatchSys false none) demoMessage Run.start).trace = [] ∧
    delivered (dispatchMessage (demoDispatchSys true (some demoParseOk)) demoMessage
      Run.start).trace = [(5, .error { Message := "not found" })] ∧
    closedSlots (dispatchMessage (demoDispatchSys true (some demoParseOk)) demoMessage
      Run.start).trace = [] ∧
    delivered (dispatchMessage (demoDispatchSys false (some demoParseBad)) demoMessage
      Run.start).trace = [(5, .error { Message := "bad rlp" })] ∧
    closedSlots (dispatchMessage (demoDispatchSys false (some demoParseBad)) demoMessage
      Run.start).trace = [] := by
  refine ⟨rfl, rfl, by decide, by decide, by decide, by decide, by decide⟩

/-- C7, amended: for a response frame matched to a registered call with a response slot,
at most one value is delivered to the slot: the server error if the frame is an error;
nothing if the frame is not an error and the call has no parse callback; a parser-error
value if the callback fails; the typed value otherwise, and in that last case the slot is
closed right after the delivery. -/
theorem response_delivery_by_case {W V : Type} (sys : DispatchSys W V) (msg : Message)
    (s : Run W (DispatchEvent V)) (call : Call V) (slot : Nat)
    (hresp : sys.IsResponse msg = true)
    (hcall : (sys.firstCallByID (sys.perform .StepBack (sys.perform .CheckTicket s.world))
      (sys.ResponseID msg)).1 = call)
    (hslot : call.response = some slot) :
    (sys.IsError msg = true →
      delivered ((dispatchMessage sys msg s).since s) = [(slot, .error (sys.ReadAsError msg))]) ∧
    (sys.IsError msg = false →
      (call.Parse = none →
        delivered ((dispatchMessage sys msg s).since s) = [] ∧
        closedSlots ((dispatchMessage sys msg s).since s) = []) ∧
      (∀ parse, call.Parse = some parse →
        (∀ err, parse msg.Buffer = .error err →
          delivered ((dispatchMessage sys msg s).since s)
            = [(slot, .error { Message := err })]) ∧
        (∀ res, parse msg.Buffer = .ok res →
          delivered ((dispatchMessage sys msg s).since s) = [(slot, .value res)] ∧
          closedSlots ((dispatchMessage sys msg s).since s) = [slot] ∧
          (dispatchMessage sys msg s).since s
            = [.CheckTicket, .StepBack, .firstCallByID (sys.ResponseID msg) call.id,
               .enqueueResponse slot (.value res), .close slot]))) := by
  refine ⟨fun herr => ?_, fun herr => ⟨fun hp => ?_, fun parse hp => ⟨fun err he => ?_,
    fun res he => ?_⟩⟩⟩
  · have : (dispatchMessage sys msg s).trace = s.trace ++
        [.CheckTicket, .StepBack, .firstCallByID (sys.ResponseID msg) call.id,
         .enqueueResponse slot (.error (sys.ReadAsError msg))] := by
      simp [dispatchMessage, hresp, hcall, hslot, herr]
    rw [Run.since_of_trace_eq this]
    simp [delivered]
  · have : (dispatchMessage sys msg s).trace = s.trace ++
        [.CheckTicket, .StepBack, .firstCallByID (sys.ResponseID msg) call.id,
         .Debug "no parse callback for rpc call: id: %d, method: %s"] := by
      simp [dispatchMessage, hresp, hcall, hslot, herr, hp]
    rw [Run.since_of_trace_eq this]
    simp [delivered, closedSlots]
  · have : (dispatchMessage sys msg s).trace = s.trace ++
        [.CheckTicket, .StepBack, .firstCallByID (sys.ResponseID msg) call.id,
         .Error "cannot decode response: %s",
         .enqueueResponse slot (.error { Message := err })] := by
      simp [dispatchMessage, hresp, hcall, hslot, herr, hp, he]
    rw [Run.since_of_trace_eq this]
    simp [delivered]
  · have : (dispatchMessage sys msg s).trace = s.trace ++
        [.CheckTicket, .StepBack, .firstCallByID (sys.ResponseID msg) call.id,
         .enqueueResponse slot (.value res), .close slot] := by
      simp [dispatchMessage, hresp, hcall, hslot, herr, hp, he]
    rw [Run.since_of_trace_eq this]
    simp [delivered, closedSlots]

/-- The four cases of the amended C7 on concrete frames. -/
theorem response_delivery_by_case_witness :
    delivered ((dispatchMessage (demoDispatchSys true (some demoParseOk)) demoMessage
      Run.start).since Run.start) = [(5, .error { Message := "not found" })] ∧
    delivered ((dispatchMessage (demoDispatchSys false none) demoMessage
      Run.start).since Run.start) = [] ∧
    delivered ((dispatchMessage (demoDispatchSys false (some demoParseBad)) demoMessage
      Run.start).since Run.start) = [(5, .error { Message := "bad rlp" })] ∧
    closedSlots ((dispatchMessage (demoDispatchSys false (some demoParseOk)) demoMessage
      Run.start).since Run.start) = [5] :=
  ⟨(response_delivery_by_case (demoDispatchSys true (some demoParseOk)) demoMessage Run.start
      _ 5 rfl rfl rfl).1 rfl,
   (((response_delivery_by_case (demoDispatchSys false none) demoMessage Run.start
      _ 5 rfl rfl rfl).2 rfl).1 rfl).1,
   (((response_delivery_by_case (demoDispatchSys false (some demoParseBad)) demoMessage
      Run.start _ 5 rfl rfl rfl).2 rfl).2 demoParseBad rfl).1 "bad rlp" rfl,
   ((((response_delivery_by_case (demoDispatchSys false (some demoParseOk)) demoMessage
      Run.start _ 5 rfl rfl rfl).2 rfl).2 demoParseOk rfl).2 3 rfl).2.1⟩

/-! ## The reader -/

/-- C8, as stated, fails: a transport read error other than `io.EOF` whose text does not
contain "connection reset by peer" (here "i/o timeout"), with neither the transport session
nor the client closed, is not followed by a RECONNECTING broadcast or a reconnect attempt:
the reader broadcasts CANCELLED, closes the client and returns. -/
theorem other_read_error_cancels_without_reconnect :
    (demoRecvSys (.other "i/o timeout") true).sClosed () = false ∧
    (demoRecvSys (.other "i/o timeout") true).Closed () = false ∧
    (recvStep (demoRecvSys (.other "i/o timeout") true) Run.start).1.trace
      = [.readMessage (.error (.other "i/o timeout")), .Closed false,
         .notifyCalls .CANCELLED, .Close] ∧
    (recvStep (demoRecvSys (.other "i/o timeout") true) Run.start).2 = false ∧
    RecvEvent.notifyCalls .RECONNECTING
      ∉ (recvStep (demoRecvSys (.other "i/o timeout") true) Run.start).1.trace ∧
    RecvEvent.Reconnect true
      ∉ (recvStep (demoRecvSys (.other "i/o timeout") true) Run.start).1.trace := by
  refine ⟨rfl, rfl, by decide, by decide, by decide, by decide⟩

/-- C8, amended: when the transport read returns an error that is `io.EOF` or whose text
contains "connection reset by peer" while the transport session is not closed, the reader
broadcasts RECONNECTING and attempts a reconnect; on success it recalls the outstanding
calls, emits RECONNECTED and keeps reading, on failure it goes to the cancel-and-close tail
and returns.  For every other read error the reader goes to that tail at once, without a
RECONNECTING broadcast or a reconnect attempt.  The tail broadcasts CANCELLED and closes
the client unless the client is closed already. -/
theorem read_error_reconnects_only_on_lost_connection {W : Type} (sys : RecvSys W)
    (s : Run W RecvEvent) (err : TransportError)
    (hread : (sys.readMessage s.world).1 = .error err) :
    (lostConnection err = true → sys.sClosed (sys.readMessage s.world).2 = false →
      (recvStep sys s).1.since s
        = [.readMessage (.error err), .sClosed false, .notifyCalls .RECONNECTING,
           .Reconnect (sys.Reconnect (sys.perform (.notifyCalls .RECONNECTING)
             (sys.readMessage s.world).2)).1] ++
          ((recvStep sys s).1.since s).drop 4 ∧
      ((sys.Reconnect (sys.perform (.notifyCalls .RECONNECTING)
          (sys.readMessage s.world).2)).1 = true →
        (recvStep sys s).1.since s
          = [.readMessage (.error err), .sClosed false, .notifyCalls .RECONNECTING,
             .Reconnect true, .recall, .notifySignal .RECONNECTED] ∧
        (recvStep sys s).2 = true) ∧
      ((sys.Reconnect (sys.perform (.notifyCalls .RECONNECTING)
          (sys.readMessage s.world).2)).1 = false →
        recvStep sys s = (cancelAndClose sys
          ((((s.call (.readMessage (.error err)) (sys.readMessage s.world).2).call
            (.sClosed false) (sys.readMessage s.world).2).emit sys.perform
            (.notifyCalls .RECONNECTING)).call (.Reconnect false)
            (sys.Reconnect (sys.perform (.notifyCalls .RECONNECTING)
              (sys.readMessage s.world).2)).2), false))) ∧
    (lostConnection err = false →
      recvStep sys s = (cancelAndClose sys
        (s.call (.readMessage (.error err)) (sys.readMessage s.world).2), false)) ∧
    (∀ s' : Run W RecvEvent,
      (sys.Closed s'.world = false →
        (cancelAndClose sys s').since s' = [.Closed false, .notifyCalls .CANCELLED, .Close]) ∧
      (sys.Closed s'.world = true → (cancelAndClose sys s').since s' = [.Closed true])) := by
  refine ⟨fun hlost hopen => ?_, fun hlost => ?_, fun s' => ⟨fun hc => ?_, fun hc => ?_⟩⟩
  · cases hrec : (sys.Reconnect (sys.perform (.notifyCalls .RECONNECTING)
        (sys.readMessage s.world).2)).1 with
    | true =>
      have htr : (recvStep sys s).1.trace = s.trace ++
          [.readMessage (.error err), .sClosed false, .notifyCalls .RECONNECTING,
           .Reconnect true, .recall, .notifySignal .RECONNECTED] := by
        simp [recvStep, hread, hlost, hopen, hrec]
      have hflag : (recvStep sys s).2 = true := by
        simp [recvStep, hread, hlost, hopen, hrec]
      rw [Run.since_of_trace_eq htr]
      exact ⟨rfl, fun _ => ⟨rfl, hflag⟩, fun h => absurd h (by simp)⟩
    | false =>
      have hstep : recvStep sys s = (cancelAndClose sys
          ((((s.call (.readMessage (.error err)) (sys.readMessage s.world).2).call
            (.sClosed false) (sys.readMessage s.world).2).emit sys.perform
            (.notifyCalls .RECONNECTING)).call (.Reconnect false)
            (sys.Reconnect (sys.perform (.notifyCalls .RECONNECTING)
              (sys.readMessage s.world).2)).2), false) := by
        simp [recvStep, hread, hlost, hopen, hrec]
      refine ⟨?_, fun h => absurd h (by simp), fun _ => hstep⟩
      rw [hstep]
      by_cases hc : sys.Closed (sys.Reconnect (sys.perform (.notifyCalls .RECONNECTING)
          (sys.readMessage s.world).2)).2 = true
      · have htr : (cancelAndClose sys
          ((((s.call (.readMessage (.error err)) (sys.readMessage s.world).2).call
            (.sClosed false) (sys.readMessage s.world).2).emit sys.perform
            (.notifyCalls .RECONNECTING)).call (.Reconnect false)
            (sys.Reconnect (sys.perform (.notifyCalls .RECONNECTING)
              (sys.readMessage s.world).2)).2)).trace = s.trace ++
            [.readMessage (.error err), .sClosed false, .notifyCalls .RECONNECTING,
             .Reconnect false, .Closed true] := by
          simp [cancelAndClose, hc]
        rw [Run.since_of_trace_eq htr]
        rfl
      · have hc' : sys.Closed (sys.Reconnect (sys.perform (.notifyCalls .RECONNECTING)
            (sys.readMessage s.world).2)).2 = false := by simpa using hc
        have htr : (cancelAndClose sys
          ((((s.call (.readMessage (.error err)) (sys.readMessage s.world).2).call
            (.sClosed false) (sys.readMessage s.world).2).emit sys.perform
            (.notifyCalls .RECONNECTING)).call (.Reconnect false)
            (sys.Reconnect (sys.perform (.notifyCalls .RECONNECTING)
              (sys.readMessage s.world).2)).2)).trace = s.trace ++
            [.readMessage (.error err), .sClosed false, .notifyCalls .RECONNECTING,
             .Reconnect false, .Closed false, .notifyCalls .CANCELLED, .Close] := by
          simp [cancelAndClose, hc']
        rw [Run.since_of_trace_eq htr]
        rfl
  · simp [recvStep, hread, hlost]
  · have htr : (cancelAndClose sys s').trace
        = s'.trace ++ [.Closed false, .notifyCalls .CANCELLED, .Close] := by
      simp [cancelAndClose, hc]
    exact Run.since_of_trace_eq htr
  · have htr : (cancelAndClose sys s').trace = s'.trace ++ [.Closed true] := by
      simp [cancelAndClose, hc]
    exact Run.since_of_trace_eq htr

/-- Scenario 4 of the specification (the read returns "connection reset by peer" and the
reconnect succeeds), a failed reconnect after `io.EOF`, and another transport error. -/
theorem read_error_reconnects_only_on_lost_connection_witness :
    ((recvStep (demoRecvSys (.other "read tcp: connection reset by peer") true)
        Run.start).1.since Run.start
      = [.readMessage (.error (.other "read tcp: connection reset by peer")), .sClosed false,
         .notifyCalls .RECONNECTING, .Reconnect true, .recall, .notifySignal .RECONNECTED] ∧
     (recvStep (demoRecvSys (.other "read tcp: connection reset by peer") true)
        Run.start).2 = true) ∧
    (recvStep (demoRecvSys .EOF false) Run.start).2 = false ∧
    (recvStep (demoRecvSys (.other "i/o timeout") true) Run.start).2 = false :=
  ⟨((read_error_reconnects_only_on_lost_connection
      (demoRecvSys (.other "read tcp: connection reset by peer") true) Run.start
      (.other "read tcp: connection reset by peer") rfl).1 (by decide) rfl).2.1 rfl,
   congrArg Prod.snd (((read_error_reconnects_only_on_lost_connection
      (demoRecvSys .EOF false) Run.start .EOF rfl).1 (by decide) rfl).2.2 rfl),
   congrArg Prod.snd ((read_error_reconnects_only_on_lost_connection
      (demoRecvSys (.other "i/o timeout") true) Run.start (.other "i/o timeout") rfl).2.1
      (by decide))⟩

/-! ## The writer -/

/-- C9, as stated, fails in its last part: a call (id 7, four bytes) dequeued while
connected, of which the transport takes two bytes without error, is not left among the
outstanding calls.  The call table is empty before and after the write, `addCall` is not
invoked; a full write of the same call does register it. -/
theorem partial_write_drops_call :
    (demoSendSys 2).Reconnecting [] = false ∧
    ((demoSendSys 2).Write [] demoCall.data).1 = (2, none) ∧
    (2 : Int) < demoCall.data.length ∧
    (sendCall (demoSendSys 2) demoCall { world := [], trace := [] }).world = [] ∧
    demoCall.id ∉ (sendCall (demoSendSys 2) demoCall { world := [], trace := [] }).world ∧
    (sendCall (demoSendSys 2) demoCall { world := [], trace := [] }).trace.any
      SendEvent.isAddCall = false ∧
    (sendCall (demoSendSys 4) demoCall { world := [], trace := [] }).world = [demoCall.id] := by
  refine ⟨rfl, rfl, by decide, by decide, by decide, by decide, by decide⟩

/-- C9, amended: for a call dequeued while the session is not reconnecting and whose
transport write returns `n < len(call.data)` without error, the writer logs "Wrong length
of data" and goes on to the next call: the call's bytes are passed to the transport exactly
once, the byte counter is not incremented and the call is dropped, that is, `addCall` is
not invoked for it.  (The writer never touches a response slot.) -/
theorem partial_write_is_dropped {W V : Type} (sys : SendSys W V) (call : Call V)
    (s : Run W (SendEvent V)) (n : Int)
    (hconn : sys.Reconnecting s.world = false)
    (hwrite : (sys.Write (sys.perform (.Debug "Send new rpc: %s") s.world) call.data).1
      = (n, none))
    (hshort : n < call.data.length) :
    sendCall sys call s
      = (((s.call (.Reconnecting false) s.world).emit sys.perform
          (.Debug "Send new rpc: %s")).call (.Write call.data n none)
          (sys.Write (sys.perform (.Debug "Send new rpc: %s") s.world) call.data).2).emit
          sys.perform (.Error "Wrong length of data") ∧
    writesOf ((sendCall sys call s).since s) = [call.data] ∧
    ((sendCall sys call s).since s).any SendEvent.isIncrement = false ∧
    ((sendCall sys call s).since s).any SendEvent.isAddCall = false ∧
    (sendCall sys call s).world = sys.perform (.Error "Wrong length of data")
      (sys.Write (sys.perform (.Debug "Send new rpc: %s") s.world) call.data).2 := by
  have hne : n ≠ (call.data.length : Int) := by omega
  have h1 : (sys.Write (sys.perform (.Debug "Send new rpc: %s") s.world) call.data).1.1 = n := by
    rw [hwrite]
  have h2 : (sys.Write (sys.perform (.Debug "Send new rpc: %s") s.world) call.data).1.2
      = none := by
    rw [hwrite]
  have hstep : sendCall sys call s
      = (((s.call (.Reconnecting false) s.world).emit sys.perform
          (.Debug "Send new rpc: %s")).call (.Write call.data n none)
          (sys.Write (sys.perform (.Debug "Send new rpc: %s") s.world) call.data).2).emit
          sys.perform (.Error "Wrong length of data") := by
    simp [sendCall, hconn, h1, h2, hne]
  have htr : (sendCall sys call s).trace = s.trace ++
      [.Reconnecting false, .Debug "Send new rpc: %s", .Write call.data n none,
       .Error "Wrong length of data"] := by
    rw [hstep]
    simp
  refine ⟨hstep, ?_, ?_, ?_, ?_⟩
  · rw [Run.since_of_trace_eq htr]
    simp [writesOf]
  · rw [Run.since_of_trace_eq htr]
    simp [SendEvent.isIncrement]
  · rw [Run.since_of_trace_eq htr]
    simp [SendEvent.isAddCall]
  · rw [hstep]
    rfl

/-- The partial write of the counterexample, through the amended C9. -/
theorem partial_write_is_dropped_witness :
    writesOf ((sendCall (demoSendSys 2) demoCall { world := [], trace := [] }).since
      { world := [], trace := [] }) = [demoCall.data] ∧
    ((sendCall (demoSendSys 2) demoCall { world := [], trace := [] }).since
      { world := [], trace := [] }).any SendEvent.isAddCall = false :=
  ⟨(partial_write_is_dropped (demoSendSys 2) demoCall { world := [], trace := [] } 2
      rfl rfl (by decide)).2.1,
   (partial_write_is_dropped (demoSendSys 2) demoCall { world := [], trace := [] } 2
      rfl rfl (by decide)).2.2.2.1⟩

/-! ## The fetch URL -/

theorem mem_plusRests (cls : CharClass) : ∀ (l r : List Char),
    r ∈ plusRests cls l ↔ ∃ pre, pre ≠ [] ∧ (∀ c ∈ pre, cls.test c = true) ∧ l = pre ++ r := by
  intro l
  induction l with
  | nil =>
    intro r
    simp only [plusRests, List.not_mem_nil, false_iff]
    rintro ⟨pre, hne, -, h⟩
    cases pre with
    | nil => exact hne rfl
    | cons a t => simp at h
  | cons c cs ih =>
    intro r
    by_cases hc : cls.test c = true
    · simp only [plusRests, hc, if_true, List.mem_append, List.mem_singleton]
      constructor
      · rintro (h | rfl)
        · obtain ⟨pre, hne, hall, heq⟩ := (ih r).mp h
          refine ⟨c :: pre, by simp, ?_, by simp [heq]⟩
          intro x hx
          rcases List.mem_cons.mp hx with rfl | hx
          · exact hc
          · exact hall x hx
        · exact ⟨[c], by simp, by simpa using hc, rfl⟩
      · rintro ⟨pre, hne, hall, heq⟩
        cases pre with
        | nil => exact absurd rfl hne
        | cons a t =>
          simp only [List.cons_append, List.cons.injEq] at heq
          obtain ⟨rfl, heq⟩ := heq
          by_cases ht : t = []
          · subst ht
            right
            simpa using heq.symm
          · left
            exact (ih r).mpr ⟨t, ht, fun x hx => hall x (List.mem_cons_of_mem _ hx), heq⟩
    · simp only [plusRests, hc, if_false, List.not_mem_nil, false_iff, Bool.false_eq_true]
      rintro ⟨pre, hne, hall, heq⟩
      cases pre with
      | nil => exact hne rfl
      | cons a t =>
        simp only [List.cons_append, List.cons.injEq] at heq
        obtain ⟨rfl, -⟩ := heq
        exact hc (hall c (List.mem_cons_self _ _))

theorem lit_run_iff (s : List Char) (m m' : MatchState) :
    m' ∈ (Regex.lit s).run m ↔
      m.rest = s ++ m'.rest ∧ m'.pos = m.pos + s.length ∧ m'.caps = m.caps := by
  rcases m with ⟨pos, rest, caps⟩
  rcases m' with ⟨pos', rest', caps'⟩
  simp only [Regex.run]
  by_cases h : s.isPrefixOf rest = true
  · obtain ⟨t, rfl⟩ := List.isPrefixOf_iff_prefix.mp h
    simp only [h, if_true, List.mem_singleton, MatchState.mk.injEq, List.drop_left,
      List.append_cancel_left_eq]
    constructor
    · rintro ⟨rfl, rfl, rfl⟩
      exact ⟨rfl, rfl, rfl⟩
    · rintro ⟨rfl, rfl, rfl⟩
      exact ⟨rfl, rfl, rfl⟩
  · simp only [h, if_false, List.not_mem_nil, false_iff, Bool.false_eq_true]
    rintro ⟨hr, -, -⟩
    exact h (List.isPrefixOf_iff_prefix.mpr ⟨rest', hr.symm⟩)

theorem plus_run_iff (cls : CharClass) (m m' : MatchState) :
    m' ∈ (Regex.plus cls).run m ↔
      ∃ pre, pre ≠ [] ∧ (∀ c ∈ pre, cls.test c = true) ∧ m.rest = pre ++ m'.rest ∧
        m'.pos = m.pos + pre.length ∧ m'.caps = m.caps := by
  rcases m with ⟨pos, rest, caps⟩
  rcases m' with ⟨pos', rest', caps'⟩
  simp only [Regex.run, List.mem_map, MatchState.mk.injEq]
  constructor
  · rintro ⟨r, hr, rfl, rfl, rfl⟩
    obtain ⟨pre, hne, hall, heq⟩ := (mem_plusRests cls rest r).mp hr
    refine ⟨pre, hne, hall, heq, ?_, rfl⟩
    subst heq
    simp
  · rintro ⟨pre, hne, hall, heq, hpos, rfl⟩
    refine ⟨rest', (mem_plusRests cls rest rest').mpr ⟨pre, hne, hall, heq⟩, ?_, rfl, rfl⟩
    subst heq
    simp [hpos]

theorem seq_run_iff (a b : Regex) (m m' : MatchState) :
    m' ∈ (Regex.seq a b).run m ↔ ∃ m1, m1 ∈ a.run m ∧ m' ∈ b.run m1 := by
  simp [Regex.run, List.mem_flatMap]

theorem alt_run_iff (a b : Regex) (m m' : MatchState) :
    m' ∈ (Regex.alt a b).run m ↔ m' ∈ a.run m ∨ m' ∈ b.run m := by
  simp [Regex.run]

theorem opt_run_iff (a : Regex) (m m' : MatchState) :
    m' ∈ (Regex.opt a).run m ↔ m' ∈ a.run m ∨ m' = m := by
  simp [Regex.run]

theorem group_run_iff (i : Nat) (a : Regex) (m m' : MatchState) :
    m' ∈ (Regex.group i a).run m ↔ ∃ m1, m1 ∈ a.run m ∧
      m' = { m1 with caps := (i, m.rest.take (m1.pos - m.pos)) :: m1.caps } := by
  simp only [Regex.run, List.mem_map]
  constructor
  · rintro ⟨m1, h, rfl⟩
    exact ⟨m1, h, rfl⟩
  · rintro ⟨m1, h, rfl⟩
    exact ⟨m1, h, rfl⟩

theorem bol_run_iff (m m' : MatchState) : m' ∈ Regex.bol.run m ↔ m.pos = 0 ∧ m' = m := by
  by_cases h : m.pos = 0 <;> simp [Regex.run, h]

theorem eol_run_iff (m m' : MatchState) : m' ∈ Regex.eol.run m ↔ m.rest = [] ∧ m' = m := by
  by_cases h : m.rest = [] <;> simp [Regex.run, h]

/-- A capturing group around an alternation of three literals. -/
theorem group_lits_run_iff (i : Nat) (a b c : List Char) (m m' : MatchState) :
    m' ∈ (Regex.group i (.alt (.lit a) (.alt (.lit b) (.lit c)))).run m ↔
      ∃ s, s ∈ [a, b, c] ∧ m.rest = s ++ m'.rest ∧ m'.pos = m.pos + s.length ∧
        m'.caps = (i, s) :: m.caps := by
  simp only [group_run_iff, alt_run_iff, lit_run_iff]
  constructor
  · rintro ⟨m1, (⟨h1, h2, h3⟩ | ⟨h1, h2, h3⟩ | ⟨h1, h2, h3⟩), rfl⟩
    · exact ⟨a, by simp, h1, h2, by simp [h1, h2, h3]⟩
    · exact ⟨b, by simp, h1, h2, by simp [h1, h2, h3]⟩
    · exact ⟨c, by simp, h1, h2, by simp [h1, h2, h3]⟩
  · rintro ⟨s, hs, h1, h2, h3⟩
    refine ⟨{ m' with caps := m.caps }, ?_, ?_⟩
    · simp only [List.mem_cons, List.mem_singleton, List.not_mem_nil, or_false] at hs
      rcases hs with rfl | rfl | rfl
      · exact Or.inl ⟨h1, h2, rfl⟩
      · exact Or.inr (Or.inl ⟨h1, h2, rfl⟩)
      · exact Or.inr (Or.inr ⟨h1, h2, rfl⟩)
    · rcases m' with ⟨p', r', c'⟩
      simp only at h1 h2 h3
      simp [h1, h2, h3]

theorem group_plus_run_iff (i : Nat) (cls : CharClass) (m m' : MatchState) :
    m' ∈ (Regex.group i (.plus cls)).run m ↔
      ∃ pre, pre ≠ [] ∧ (∀ c ∈ pre, cls.test c = true) ∧ m.rest = pre ++ m'.rest ∧
        m'.pos = m.pos + pre.length ∧ m'.caps = (i, pre) :: m.caps := by
  simp only [group_run_iff, plus_run_iff]
  constructor
  · rintro ⟨m1, ⟨pre, hne, hall, h1, h2, h3⟩, rfl⟩
    exact ⟨pre, hne, hall, h1, h2, by simp [h1, h2, h3]⟩
  · rintro ⟨pre, hne, hall, h1, h2, h3⟩
    refine ⟨{ m' with caps := m.caps }, ⟨pre, hne, hall, h1, h2, rfl⟩, ?_⟩
    rcases m' with ⟨p', r', c'⟩
    simp only at h1 h2 h3
    simp [h1, h2, h3]

theorem port_run_iff (m m' : MatchState) :
    m' ∈ (Regex.opt (.group 4 (.seq (.lit [':']) (.plus .digit)))).run m ↔
      ∃ port, ValidPort port ∧ m.rest = portText port ++ m'.rest ∧
        m'.pos = m.pos + (portText port).length ∧
        m'.caps = (match port with
          | none => m.caps
          | some digits => (4, ":".data ++ digits) :: m.caps) := by
  simp only [opt_run_iff, group_run_iff, seq_run_iff, lit_run_iff, plus_run_iff]
  constructor
  · rintro (⟨m1, ⟨m2, ⟨h1, h2, h3⟩, pre, hne, hall, h4, h5, h6⟩, rfl⟩ | rfl)
    · refine ⟨some pre, ?_, ?_, ?_, ?_⟩
      · intro d hd
        cases hd
        exact ⟨hne, fun c hc => by simpa [CharClass.test] using hall c hc⟩
      · simp [portText, h1, h4]
      · simp only [portText, List.length_append, h5, h2]
        omega
      · simp only [h6, h3, h1, h4, h5, h2]
        congr 2
        have : m.pos + (":".data).length + pre.length - m.pos
            = (":".data ++ pre).length := by
          simp only [List.length_append]
          omega
        rw [this, ← List.append_assoc, List.take_left]
    · refine ⟨none, ?_, rfl, rfl, rfl⟩
      intro d hd
      cases hd
  · rintro ⟨port, hv, h1, h2, h3⟩
    cases port with
    | none =>
      right
      rcases m with ⟨p, r, c⟩
      rcases m' with ⟨p', r', c'⟩
      simp only [portText, List.nil_append, List.length_nil, Nat.add_zero] at h1 h2 h3
      simp [h1, h2, h3]
    | some digits =>
      left
      obtain ⟨hne, hall⟩ := hv digits rfl
      simp only [portText, List.append_assoc] at h1
      simp only [portText, List.length_append] at h2
      refine ⟨{ m' with caps := m.caps },
        ⟨⟨m.pos + (":".data).length, digits ++ m'.rest, m.caps⟩, ⟨h1, rfl, rfl⟩, digits, hne,
          fun c hc => by simpa [CharClass.test] using hall c hc, rfl, ?_, rfl⟩, ?_⟩
      · simp only [h2]
        omega
      · rcases m' with ⟨p', r', c'⟩
        simp only at h1 h2 h3
        simp only [h3, h2, h1, MatchState.mk.injEq, true_and, List.cons.injEq, Prod.mk.injEq]
        refine ⟨?_, trivial⟩
        have : m.pos + ([':'].length + digits.length) - m.pos
            = ([':'] ++ digits).length := by
          simp only [List.length_append]
          omega
        rw [this, ← List.append_assoc, List.take_left]

theorem domainPattern_run_iff (m m' : MatchState) :
    m' ∈ domainPattern.run m ↔
      m.pos = 0 ∧ ∃ scheme name suffix port,
        scheme ∈ overlaySchemes ∧ name ≠ [] ∧ (∀ c ∈ name, c ≠ '\n') ∧
        suffix ∈ overlaySuffixes ∧ ValidPort port ∧
        m.rest = overlayURL scheme name suffix port ∧ m'.rest = [] ∧
        m'.caps = (match port with
          | none => (3, suffix) :: (2, name) :: (1, scheme) :: m.caps
          | some digits =>
            (4, ":".data ++ digits) :: (3, suffix) :: (2, name) :: (1, scheme) :: m.caps) ∧
        m'.pos = (overlayURL scheme name suffix port).length := by
  simp only [domainPattern, seq_run_iff, group_lits_run_iff, group_plus_run_iff, port_run_iff,
    lit_run_iff, bol_run_iff, eol_run_iff]
  constructor
  · rintro ⟨m1, ⟨h0, rfl⟩, m2, ⟨scheme, hs, a1, a2, a3⟩, m3, ⟨b1, b2, b3⟩,
      m4, ⟨name, hne, hall, c1, c2, c3⟩, m5, ⟨d1, d2, d3⟩, m6, ⟨suffix, hx, e1, e2, e3⟩,
      m7, ⟨port, hv, f1, f2, f3⟩, g1, rfl⟩
    refine ⟨h0, scheme, name, suffix, port, hs, hne,
      fun c hc => by simpa [CharClass.test] using hall c hc, hx, hv, ?_, g1, ?_, ?_⟩
    · simp only [overlayURL, a1, b1, c1, d1, e1, f1, g1, List.append_nil]
    · rw [f3]
      cases port <;> simp [e3, d3, c3, b3, a3]
    · simp only [overlayURL, List.length_append, f2, e2, d2, c2, b2, a2, h0]
      omega
  · rintro ⟨h0, scheme, name, suffix, port, hs, hne, hall, hx, hv, hurl, hrest, hcaps, hpos⟩
    refine ⟨m, ⟨h0, rfl⟩,
      ⟨scheme.length, "://".data ++ (name ++ (".".data ++ (suffix ++ portText port))),
        (1, scheme) :: m.caps⟩, ⟨scheme, hs, hurl, by simp [h0], rfl⟩,
      ⟨scheme.length + ("://".data).length, name ++ (".".data ++ (suffix ++ portText port)),
        (1, scheme) :: m.caps⟩, ⟨rfl, rfl, rfl⟩,
      ⟨scheme.length + ("://".data).length + name.length,
        ".".data ++ (suffix ++ portText port), (2, name) :: (1, scheme) :: m.caps⟩,
      ⟨name, hne, fun c hc => by simpa [CharClass.test] using hall c hc, rfl, rfl, rfl⟩,
      ⟨scheme.length + ("://".data).length + name.length + (".".data).length,
        suffix ++ portText port, (2, name) :: (1, scheme) :: m.caps⟩, ⟨rfl, rfl, rfl⟩,
      ⟨scheme.length + ("://".data).length + name.length + (".".data).length + suffix.length,
        portText port, (3, suffix) :: (2, name) :: (1, scheme) :: m.caps⟩,
      ⟨suffix, hx, rfl, rfl, rfl⟩, m', ⟨port, hv, ?_, ?_, ?_⟩, hrest, rfl⟩
    · simp [hrest]
    · simp only [hpos, overlayURL, List.length_append]
      omega
    · rw [hcaps]

theorem domainPattern_run_of_pos (pos : Nat) (rest : List Char) (h : 0 < pos) :
    domainPattern.run { pos := pos, rest := rest, caps := [] } = [] := by
  apply List.eq_nil_iff_forall_not_mem.mpr
  intro m' hm
  have := ((domainPattern_run_iff _ m').mp hm).1
  simp only at this
  omega

theorem domainPattern_search_of_pos (rest : List Char) :
    ∀ pos, 0 < pos → domainPattern.search pos rest = none := by
  induction rest with
  | nil =>
    intro pos h
    simp [Regex.search, domainPattern_run_of_pos pos [] h]
  | cons c cs ih =>
    intro pos h
    rw [Regex.search]
    simp [domainPattern_run_of_pos pos (c :: cs) h, ih (pos + 1) (by omega)]

theorem overlayScheme_unique {s s' x y : List Char} (hs : s ∈ overlaySchemes)
    (hs' : s' ∈ overlaySchemes) (h : s ++ ("://".data ++ x) = s' ++ ("://".data ++ y)) :
    s = s' := by
  simp only [overlaySchemes, List.mem_cons, List.mem_singleton, List.not_mem_nil,
    or_false] at hs hs'
  rcases hs with rfl | rfl | rfl <;> rcases hs' with rfl | rfl | rfl <;>
    first
    | rfl
    | (exfalso; revert h; simp)

theorem search_of_run_nil (url : List Char)
    (h : domainPattern.run { pos := 0, rest := url, caps := [] } = []) :
    domainPattern.search 0 url = none := by
  cases url with
  | nil => simp [Regex.search, h]
  | cons c cs =>
    rw [Regex.search]
    simp [h, domainPattern_search_of_pos cs 1 (by omega)]

theorem search_of_run_cons (url : List Char) (m : MatchState) (ms : List MatchState)
    (h : domainPattern.run { pos := 0, rest := url, caps := [] } = m :: ms) :
    domainPattern.search 0 url = some (0, url, m) := by
  cases url with
  | nil =>
    rw [Regex.search]
    simp only [h, List.head?_cons]
  | cons c cs =>
    rw [Regex.search]
    simp only [h, List.head?_cons]

theorem requestURI_of_no_shape (url : String) (hne : url ≠ "")
    (h : ¬ ∃ scheme, AcceptedShape scheme url) : requestURI url = .error .errWeb2URL := by
  have hlen : url.length ≠ 0 := by
    rcases url with ⟨l⟩
    cases l with
    | nil => exact absurd rfl hne
    | cons a t => simp [String.length]
  have hrun : domainPattern.run { pos := 0, rest := url.data, caps := [] } = [] := by
    apply List.eq_nil_iff_forall_not_mem.mpr
    intro m' hm
    obtain ⟨-, scheme, name, suffix, port, hs, hn, hall, hx, hv, hurl, -⟩ :=
      (domainPattern_run_iff _ m').mp hm
    exact h ⟨scheme, name, suffix, port, hs, hn, hall, hx, hv, hurl⟩
  simp [requestURI, hlen, FindStringSubmatch, search_of_run_nil _ hrun]

theorem requestURI_of_shape (url : String) (scheme : List Char)
    (h : AcceptedShape scheme url) :
    requestURI url
      = .ok (if scheme = "diode".data then "http://" ++ String.mk (url.data.drop 8)
          else url) := by
  obtain ⟨name, suffix, port, hs, hn, hall, hx, hv, hurl⟩ := h
  have hlen : url.length ≠ 0 := by
    rcases url with ⟨l⟩
    simp only at hurl
    subst hurl
    simp only [overlaySchemes, List.mem_cons, List.mem_singleton, List.not_mem_nil,
      or_false] at hs
    rcases hs with rfl | rfl | rfl <;> simp [String.length, overlayURL]
  obtain ⟨m0, hm0⟩ : ∃ m0, m0 ∈ domainPattern.run { pos := 0, rest := url.data, caps := [] } := by
    refine ⟨⟨(overlayURL scheme name suffix port).length, [], _⟩,
      (domainPattern_run_iff _ _).mpr ⟨rfl, scheme, name, suffix, port, hs, hn, hall, hx,
        hv, hurl, rfl, rfl, rfl⟩⟩
  cases hrun : domainPattern.run { pos := 0, rest := url.data, caps := [] } with
  | nil => rw [hrun] at hm0; cases hm0
  | cons m ms =>
    have hm : m ∈ domainPattern.run { pos := 0, rest := url.data, caps := [] } := by
      rw [hrun]; exact List.mem_cons_self _ _
    obtain ⟨-, scheme', name', suffix', port', hs', -, -, -, -, hurl', -, hcaps, -⟩ :=
      (domainPattern_run_iff _ m).mp hm
    simp only at hurl'
    have hsame : scheme = scheme' := by
      apply overlayScheme_unique hs hs' (x := name ++ (".".data ++ (suffix ++ portText port)))
        (y := name' ++ (".".data ++ (suffix' ++ portText port')))
      rw [hurl] at hurl'
      simpa [overlayURL] using hurl'
    subst hsame
    have hcap : (m.caps.lookup 1).getD [] = scheme := by
      rw [hcaps]
      cases port' <;> simp [List.lookup]
    have hdiode : (String.mk scheme = "diode") ↔ scheme = "diode".data := by
      rw [String.ext_iff]
    simp only [requestURI, hlen, if_false, FindStringSubmatch, search_of_run_cons _ m ms hrun,
      List.length_cons, Nat.succ_ne_zero, List.getElem?_cons_succ, List.range_succ_eq_map,
      List.map_cons, List.getElem?_cons_zero, hcap, Option.some.injEq, hdiode]
    split <;> rfl

theorem fetchHandler_request_uri {W : Type} (sys : FetchSys W) (fetchCfg : FetchConfig)
    (s : Run W FetchEvent) (u : String) (h : requestURI fetchCfg.URL = .ok u) :
    ∀ method uri err,
      FetchEvent.request method uri err ∈ (fetchHandler sys fetchCfg s).2.since s → uri = u := by
  intro method uri err hmem
  simp only [fetchHandler, h] at hmem
  cases hl : allowedMethod.entries.lookup (sys.ToUpper fetchCfg.Method) with
  | none => simp [hl, Run.since] at hmem
  | some allowed =>
    cases allowed with
    | false => simp [hl, Run.since] at hmem
    | true =>
      cases ha : (sys.appStart s.world).1 with
      | some e =>
        simp only [hl, ha, Run.since, Run.call_trace, List.drop_left, List.mem_singleton] at hmem
        cases hmem
      | none =>
        simp only [hl, ha, Run.since, Run.call_trace, List.append_assoc, List.drop_left,
          List.mem_append, List.mem_singleton, List.mem_cons, List.not_mem_nil, or_false] at hmem
        rcases hmem with hmem | hmem
        · cases hmem
        · cases hmem
          rfl

theorem validPort_none : ValidPort none := by
  intro d hd
  cases hd

/-- C10, as stated, fails: `diode://a<LF>b.diode` is of the claimed shape (scheme diode, the
non-empty name `a<LF>b`, suffix diode), yet no request URI is computed for it: the class
`.` of `domainPattern` does not match a line feed, and `fetchHandler` returns
`errWeb2URL`. -/
theorem line_feed_in_name_is_rejected :
    ClaimedShape "diode".data "diode://a\nb.diode" ∧
    requestURI "diode://a\nb.diode" = .error .errWeb2URL ∧
    fetchHandler demoFetchSys { Method := "GET", URL := "diode://a\nb.diode" } Run.start
      = (some .errWeb2URL, Run.start) := by
  refine ⟨⟨"a\nb".data, "diode".data, none, by decide, by decide, trivial, by decide,
    validPort_none, by decide⟩, by decide, ?_⟩
  have h : requestURI "diode://a\nb.diode" = .error .errWeb2URL := by decide
  simp only [fetchHandler, h]

/-- C10, amended: for a non-empty fetch URL, with the shape
`<scheme>://<name>.<suffix>[:<digits>]` where the scheme is http, https or diode, the name
is non-empty and holds no line feed and the suffix is diode, diode.link or diode.ws: a URL
not of that shape makes `fetchHandler` return `errWeb2URL` with nothing done (whatever the
method, the session not started); a URL of that shape with scheme diode begins with
`diode://` and its request URI is `http://` followed by the rest of the URL; with scheme
http or https the request URI is the URL itself. -/
theorem fetch_url_by_shape {W : Type} (sys : FetchSys W) (fetchCfg : FetchConfig)
    (s : Run W FetchEvent) (hne : fetchCfg.URL ≠ "") :
    ((¬ ∃ scheme, AcceptedShape scheme fetchCfg.URL) →
      fetchHandler sys fetchCfg s = (some .errWeb2URL, s)) ∧
    (AcceptedShape "diode".data fetchCfg.URL →
      fetchCfg.URL.data.take 8 = "diode://".data ∧
      requestURI fetchCfg.URL = .ok ("http://" ++ String.mk (fetchCfg.URL.data.drop 8)) ∧
      ∀ method uri err,
        FetchEvent.request method uri err ∈ (fetchHandler sys fetchCfg s).2.since s →
          uri = "http://" ++ String.mk (fetchCfg.URL.data.drop 8)) ∧
    (AcceptedShape "http".data fetchCfg.URL ∨ AcceptedShape "https".data fetchCfg.URL →
      requestURI fetchCfg.URL = .ok fetchCfg.URL ∧
      ∀ method uri err,
        FetchEvent.request method uri err ∈ (fetchHandler sys fetchCfg s).2.since s →
          uri = fetchCfg.URL) := by
  refine ⟨fun hno => ?_, fun hd => ?_, fun hh => ?_⟩
  · simp only [fetchHandler, requestURI_of_no_shape fetchCfg.URL hne hno]
  · have hu := requestURI_of_shape fetchCfg.URL _ hd
    simp only [if_true] at hu
    refine ⟨?_, hu, fetchHandler_request_uri sys fetchCfg s _ hu⟩
    obtain ⟨name, suffix, port, -, -, -, -, -, hurl⟩ := hd
    rw [hurl]
    rfl
  · have hu : requestURI fetchCfg.URL = .ok fetchCfg.URL := by
      rcases hh with hh | hh
      · rw [requestURI_of_shape fetchCfg.URL _ hh]
        simp
      · rw [requestURI_of_shape fetchCfg.URL _ hh]
        simp
    exact ⟨hu, fetchHandler_request_uri sys fetchCfg s _ hu⟩

/-- A URL that `domainPattern` does not match is of no accepted shape. -/
theorem not_accepted_of_run_nil (url : String)
    (h : domainPattern.run { pos := 0, rest := url.data, caps := [] } = []) :
    ¬ ∃ scheme, AcceptedShape scheme url := by
  rintro ⟨scheme, name, suffix, port, hs, hn, hall, hx, hv, hurl⟩
  obtain ⟨m0, hm0⟩ : ∃ m0, m0 ∈ domainPattern.run { pos := 0, rest := url.data, caps := [] } := by
    refine ⟨⟨(overlayURL scheme name suffix port).length, [], _⟩,
      (domainPattern_run_iff _ _).mpr ⟨rfl, scheme, name, suffix, port, hs, hn, hall, hx,
        hv, hurl, rfl, rfl, rfl⟩⟩
  rw [h] at hm0
  cases hm0

/-- Scenario 5 of the specification (`https://example.com/` is rejected before anything is
done), a diode URL with a port and an http URL. -/
theorem fetch_url_by_shape_witness :
    fetchHandler demoFetchSys { Method := "GET", URL := "https://example.com/" } Run.start
      = (some .errWeb2URL, Run.start) ∧
    requestURI "diode://pi-taipei.diode:8080" = .ok "http://pi-taipei.diode:8080" ∧
    requestURI "http://a.diode.link" = .ok "http://a.diode.link" :=
  ⟨(fetch_url_by_shape demoFetchSys { Method := "GET", URL := "https://example.com/" }
      Run.start (by decide)).1 (not_accepted_of_run_nil _ (by decide)),
   ((fetch_url_by_shape demoFetchSys { Method := "GET", URL := "diode://pi-taipei.diode:8080" }
      Run.start (by decide)).2.1
      ⟨"pi-taipei".data, "diode".data, some "8080".data, by decide, by decide, by decide,
        by decide, fun d hd => by cases hd; exact ⟨by decide, by decide⟩, by decide⟩).2.1,
   ((fetch_url_by_shape demoFetchSys { Method := "GET", URL := "http://a.diode.link" }
      Run.start (by decide)).2.2
      (Or.inl ⟨"a".data, "diode.link".data, none, by decide, by decide, by decide,
        by decide, validPort_none, by decide⟩)).1⟩

end Diode
